import Mathlib

set_option maxRecDepth 4000

/-!
Shallow embedding of the host-authoritative game logic of the repository
(src/App.tsx, socket version: `executeGameLogic` and the processors it
dispatches to, plus the `game_state_sync` client handler).

Conventions of the embedding:
- JS numbers holding money are modelled as `Int`; board positions, dice and
  counters as `Nat`.
- Randomness is factored out: `processRoll` takes the two dice as arguments
  and the chance-card draw is passed as an argument to the functions that
  consume it (in the source the card is drawn by indexing the fixed deck with
  a random index, so the draw is always a member of the deck).
- Log entries carry no timestamps or uuid; each `createLog` call site is
  identified by a `LogMsg` tag together with its severity, which is enough to
  reason about which entries are appended.  The substring check on the card
  description done by one MOVE_TO branch is modelled by the per-card boolean
  field `descMentionsJail`.
- Array accesses that would throw in JS (out-of-range index, `findIndex`
  returning -1 followed by an element access) can not occur on the states the
  program builds; the embedding makes the functions total by returning the
  input state unchanged in those cases.
-/

inductive TileType
  | PROPERTY
  | START
  | JAIL
  | PARKING
  | GO_TO_JAIL
  | CHANCE
  | COMMUNITY_CHEST
  | TAX
  | STATION
  | UTILITY
  deriving DecidableEq, Repr

inductive ColorGroup
  | BROWN
  | LIGHT_BLUE
  | PINK
  | ORANGE
  | RED
  | YELLOW
  | GREEN
  | DARK_BLUE
  | STATION
  | UTILITY
  | NONE
  deriving DecidableEq, Repr

inductive GamePhase
  | LOGIN
  | LOBBY_ROOMS
  | ROOM_SETUP
  | ROLLING
  | MOVING
  | ACTION
  | SHOWING_CARD
  | END_TURN
  | GAME_OVER
  deriving DecidableEq, Repr

inductive LogType
  | info
  | success
  | danger
  | warning
  deriving DecidableEq, Repr

/-- Identifies the createLog call site that produced a log entry
(the concrete Chinese message strings are irrelevant to the logic). -/
inductive LogMsg
  | surrendered
  | bailShort
  | bailPaid
  | upgradeShort
  | upgradeMaxed
  | upgraded
  | declinedBuy
  | bought
  | jailDoubleEscape
  | jailForcedBail
  | jailStay
  | speeding
  | rolled
  | passedStart
  | arrivedAt
  | goToJailTile
  | monopolyRent
  | utilityRent
  | paidRent
  | wentBankrupt
  | paidTax
  | cardExec
  | cardToJail
  deriving DecidableEq, Repr

structure LogEntry where
  msg : LogMsg
  type : LogType
  deriving DecidableEq, Repr

def createLog (m : LogMsg) (t : LogType := LogType.info) : LogEntry := ⟨m, t⟩

inductive CardEffect
  | MONEY
  | MOVE_TO
  | MOVE_STEPS
  | GO_TO_JAIL
  deriving DecidableEq, Repr

structure ChanceCard where
  id : Nat
  effectType : CardEffect
  value : Int
  descMentionsJail : Bool
  deriving DecidableEq, Repr

structure Tile where
  id : Nat
  type : TileType
  price : Option Int
  rent : Option (List Int)
  group : ColorGroup
  ownerId : Option String
  houseCost : Option Int
  houseCount : Option Nat
  deriving DecidableEq, Repr

structure Player where
  id : String
  money : Int
  position : Nat
  isInJail : Bool
  jailTurns : Nat
  consecutiveDoubles : Nat
  properties : List Nat
  bankrupt : Bool
  deriving DecidableEq, Repr

structure GameState where
  players : List Player
  currentPlayerIndex : Nat
  tiles : List Tile
  dice : Nat × Nat
  phase : GamePhase
  logs : List LogEntry
  winner : Option Player
  currentCard : Option ChanceCard
  selectedTileId : Option Nat
  waitingForDoublesTurn : Bool
  currentUser : Option String
  roomId : Option String
  isHost : Bool
  deriving DecidableEq, Repr

inductive ActionType
  | ROLL
  | BUY
  | PASS
  | PAY_BAIL
  | UPGRADE
  | END_TURN
  | SURRENDER
  deriving DecidableEq, Repr

structure NetworkAction where
  type : ActionType
  playerId : String
  deriving DecidableEq, Repr

/-- Embedding of the find pattern `players.find(p => p.id === pid)`. -/
def findPlayer (ps : List Player) (pid : String) : Option Player :=
  match ps with
  | [] => none
  | p :: rest => if p.id = pid then some p else findPlayer rest pid

/-- Embedding of the find pattern `tiles.find(t => t.id === tid)`. -/
def findTile (ts : List Tile) (tid : Nat) : Option Tile :=
  match ts with
  | [] => none
  | t :: rest => if t.id = tid then some t else findTile rest tid

/-- Embedding of the JS array access `tiles[i]`. -/
def tileAt (ts : List Tile) (i : Nat) : Option Tile :=
  match ts, i with
  | [], _ => none
  | t :: _, 0 => some t
  | _ :: rest, Nat.succ j => tileAt rest j

/-- Embedding of the assignment `newTiles[i] = t` on a copied array. -/
def setTileAt (ts : List Tile) (i : Nat) (t : Tile) : List Tile :=
  match ts, i with
  | [], _ => []
  | _ :: rest, 0 => t :: rest
  | u :: rest, Nat.succ j => u :: setTileAt rest j t

/-- Embedding of the `findIndex` / assign-at-index pattern used on the copied
player array: the first player with the given id is replaced by `f` of it. -/
def updateFirst (ps : List Player) (pid : String) (f : Player → Player) : List Player :=
  match ps with
  | [] => []
  | p :: rest => if p.id = pid then f p :: rest else p :: updateFirst rest pid f

/-- Same pattern for the tile array, keyed by tile id (processUpgrade). -/
def updateFirstTile (ts : List Tile) (tid : Nat) (f : Tile → Tile) : List Tile :=
  match ts with
  | [] => []
  | t :: rest => if t.id = tid then f t :: rest else t :: updateFirstTile rest tid f

/-- Embedding of the check `state.players[state.currentPlayerIndex].id === pid`
(an out-of-range index would throw in JS; it is modelled as false). -/
def isTurnOf (state : GameState) (pid : String) : Bool :=
  match state.players.get? state.currentPlayerIndex with
  | some p => p.id = pid
  | none => false

/-- Embedding of `checkOwnsGroup` (App.tsx).  The JS truthiness test on the
player id also rejects the empty string. -/
def checkOwnsGroup (playerId : Option String) (group : ColorGroup) (allTiles : List Tile) : Bool :=
  match playerId with
  | none => false
  | some pid =>
    if pid = "" ∨ group = ColorGroup.NONE then false
    else
      let groupTiles := allTiles.filter (fun t => decide (t.group = group))
      decide (0 < groupTiles.length) && groupTiles.all (fun t => decide (t.ownerId = some pid))

/-- Embedding of the rent chain inside `handleLanding` (property tier lookup
with monopoly doubling, station count rent, utility dice rent).  Returns the
rent together with the log entries the chain pushes.  A JS out-of-range tier
lookup (undefined) can not occur on the fixed board and is modelled as 0. -/
def computeRent (state : GameState) (tile : Tile) (owner : Player) : Int × List LogEntry :=
  if tile.type = TileType.PROPERTY then
    let baseRent : Int :=
      match tile.rent with
      | some r => r.getD (tile.houseCount.getD 0) 0
      | none => 0
    if (tile.houseCount = some 0 ∨ tile.houseCount = none) ∧
        checkOwnsGroup (some owner.id) tile.group state.tiles = true then
      (baseRent * 2, [createLog LogMsg.monopolyRent LogType.warning])
    else
      (baseRent, [])
  else if tile.type = TileType.STATION then
    let stationsOwned :=
      (state.tiles.filter (fun t =>
        decide (t.group = ColorGroup.STATION ∧ t.ownerId = some owner.id))).length
    ((25 : Int) * 2 ^ (stationsOwned - 1), [])
  else if tile.type = TileType.UTILITY then
    let utilitiesOwned :=
      (state.tiles.filter (fun t =>
        decide (t.group = ColorGroup.UTILITY ∧ t.ownerId = some owner.id))).length
    let diceSum : Int := (state.dice.1 : Int) + (state.dice.2 : Int)
    (if utilitiesOwned = 2 then diceSum * 10 else diceSum * 4,
      [createLog LogMsg.utilityRent LogType.info])
  else
    (0, [])

/-- Embedding of `applyChanceEffect`. -/
def applyChanceEffect (state : GameState) (playerId : String) (card : ChanceCard)
    (isDouble : Bool) (logs : List LogEntry) : GameState × List LogEntry :=
  match findPlayer state.players playerId with
  | none => (state, logs)
  | some _player =>
    let nextPhase := if isDouble then GamePhase.ROLLING else GamePhase.END_TURN
    let waitingForDoubles := isDouble
    let logs := logs ++ [createLog LogMsg.cardExec LogType.info]
    match card.effectType with
    | CardEffect.MONEY =>
      let newPlayers := updateFirst state.players playerId
        (fun p => { p with money := p.money + card.value })
      ({ state with
          players := newPlayers,
          phase := nextPhase,
          waitingForDoublesTurn := waitingForDoubles }, logs)
    | CardEffect.MOVE_TO =>
      if card.value = 10 ∧ card.descMentionsJail = true then
        let newPlayers := updateFirst state.players playerId
          (fun p => { p with
              position := 10,
              isInJail := true,
              jailTurns := 0,
              consecutiveDoubles := 0 })
        ({ state with
            players := newPlayers,
            phase := GamePhase.END_TURN,
            waitingForDoublesTurn := false },
         logs ++ [createLog LogMsg.cardToJail LogType.danger])
      else
        let newPlayers := updateFirst state.players playerId
          (fun p =>
            let p := if (p.position : Int) > card.value
                     then { p with money := p.money + 200 } else p
            { p with position := card.value.toNat })
        ({ state with
            players := newPlayers,
            phase := nextPhase,
            waitingForDoublesTurn := waitingForDoubles }, logs)
    | CardEffect.MOVE_STEPS =>
      let newPlayers := updateFirst state.players playerId
        (fun p =>
          let np : Int := (p.position : Int) + card.value
          let (np, p) := if np ≥ 40 then (np - 40, { p with money := p.money + 200 })
                         else (np, p)
          let np := if np < 0 then np + 40 else np
          { p with position := np.toNat })
      ({ state with
          players := newPlayers,
          phase := nextPhase,
          waitingForDoublesTurn := waitingForDoubles }, logs)
    | CardEffect.GO_TO_JAIL =>
      let newPlayers := updateFirst state.players playerId
        (fun p => { p with
            position := 10,
            isInJail := true,
            jailTurns := 0,
            consecutiveDoubles := 0 })
      ({ state with
          players := newPlayers,
          phase := GamePhase.END_TURN,
          waitingForDoublesTurn := false },
       logs ++ [createLog LogMsg.cardToJail LogType.danger])

/-- Embedding of `handleLanding`.  The chance-card draw is passed in as
`card`.  The property branch falls through to the tax / default returns when
the owner is missing, bankrupt, or is the landing player, exactly as the
source (those inner branches do not return). -/
def handleLanding (state : GameState) (playerId : String) (isDouble : Bool)
    (card : ChanceCard) (logs : List LogEntry) : GameState × List LogEntry :=
  match findPlayer state.players playerId with
  | none => (state, logs)
  | some player =>
    match tileAt state.tiles player.position with
    | none => (state, logs)
    | some tile =>
      let logs := logs ++ [createLog LogMsg.arrivedAt LogType.info]
      if tile.type = TileType.GO_TO_JAIL then
        let newPlayers := updateFirst state.players playerId
          (fun p => { p with
              position := 10,
              isInJail := true,
              jailTurns := 0,
              consecutiveDoubles := 0 })
        ({ state with
            players := newPlayers,
            phase := GamePhase.END_TURN,
            waitingForDoublesTurn := false },
         logs ++ [createLog LogMsg.goToJailTile LogType.danger])
      else if tile.type = TileType.CHANCE ∨ tile.type = TileType.COMMUNITY_CHEST then
        let nextState := { state with
            currentCard := some card,
            phase := GamePhase.SHOWING_CARD }
        applyChanceEffect nextState playerId card isDouble logs
      else
        let propertyResult : Option (GameState × List LogEntry) :=
          if tile.type = TileType.PROPERTY ∨ tile.type = TileType.STATION ∨
              tile.type = TileType.UTILITY then
            match tile.ownerId with
            | some oid =>
              if oid ≠ playerId then
                match findPlayer state.players oid with
                | some owner =>
                  if owner.bankrupt = false then
                    let rentAndLogs := computeRent state tile owner
                    let rent := rentAndLogs.1
                    let logs := logs ++ rentAndLogs.2 ++
                      [createLog LogMsg.paidRent LogType.danger]
                    let newPlayers := updateFirst state.players playerId
                      (fun p => { p with money := p.money - rent })
                    let newPlayers := updateFirst newPlayers oid
                      (fun p => { p with money := p.money + rent })
                    if player.money - rent < 0 then
                      let newPlayers := updateFirst newPlayers playerId
                        (fun p => { p with bankrupt := true })
                      let logs := logs ++ [createLog LogMsg.wentBankrupt LogType.danger]
                      let active := newPlayers.filter (fun p => !p.bankrupt)
                      if active.length ≤ 1 then
                        some ({ state with
                            players := newPlayers,
                            winner := active.head?,
                            phase := GamePhase.GAME_OVER }, logs)
                      else
                        let newTiles := state.tiles.map (fun t =>
                          if t.ownerId = some playerId then
                            { t with ownerId := none, houseCount := some 0 } else t)
                        some ({ state with
                            players := newPlayers,
                            tiles := newTiles,
                            phase := GamePhase.END_TURN,
                            waitingForDoublesTurn := false }, logs)
                    else
                      some ({ state with
                          players := newPlayers,
                          phase := if isDouble then GamePhase.ROLLING else GamePhase.END_TURN,
                          waitingForDoublesTurn := isDouble }, logs)
                  else none
                | none => none
              else none
            | none =>
              some ({ state with
                  phase := GamePhase.ACTION,
                  waitingForDoublesTurn := isDouble }, logs)
          else none
        match propertyResult with
        | some res => res
        | none =>
          if tile.type = TileType.TAX then
            let tax : Int :=
              match tile.price with
              | some v => if v = 0 then 100 else v
              | none => 100
            let logs := logs ++ [createLog LogMsg.paidTax LogType.danger]
            let newPlayers := updateFirst state.players playerId
              (fun p => { p with money := p.money - tax })
            ({ state with
                players := newPlayers,
                phase := if isDouble then GamePhase.ROLLING else GamePhase.END_TURN,
                waitingForDoublesTurn := isDouble }, logs)
          else
            ({ state with
                phase := if isDouble then GamePhase.ROLLING else GamePhase.END_TURN,
                waitingForDoublesTurn := isDouble }, logs)

/-- Embedding of `movePlayer`.  `steps` is the dice total, so it is never
negative and the negative-wraparound branch of the source is unreachable. -/
def movePlayer (state : GameState) (steps : Nat) (playerId : String) (isDouble : Bool)
    (card : ChanceCard) (logs : List LogEntry) : GameState × List LogEntry :=
  match findPlayer state.players playerId with
  | none => (state, logs)
  | some p =>
    let pos0 := p.position + steps
    let passed := pos0 ≥ 40
    let newPos := if pos0 ≥ 40 then pos0 - 40 else pos0
    let logs := if passed then logs ++ [createLog LogMsg.passedStart LogType.success] else logs
    let newPlayers := updateFirst state.players playerId (fun q =>
      let q := if passed then { q with money := q.money + 200 } else q
      { q with position := newPos })
    let newState := { state with players := newPlayers }
    handleLanding newState playerId isDouble card logs

/-- Embedding of `processRoll`, with the dice passed in for the random
draws. -/
def processRoll (state : GameState) (player : Player) (d1 d2 : Nat)
    (card : ChanceCard) (logs : List LogEntry) : GameState × List LogEntry :=
  let total := d1 + d2
  let isDouble := d1 = d2
  let newState := { state with dice := (d1, d2), waitingForDoublesTurn := false }
  if player.isInJail then
    if isDouble then
      let logs := logs ++ [createLog LogMsg.jailDoubleEscape LogType.success]
      let newPlayers := updateFirst newState.players player.id
        (fun p => { p with
            isInJail := false,
            jailTurns := 0,
            consecutiveDoubles := 0 })
      movePlayer { newState with players := newPlayers } total player.id false card logs
    else
      if player.jailTurns ≥ 2 then
        let logs := logs ++ [createLog LogMsg.jailForcedBail LogType.warning]
        let newPlayers := updateFirst newState.players player.id
          (fun p => { p with
              money := p.money - 50,
              isInJail := false,
              jailTurns := 0,
              consecutiveDoubles := 0 })
        movePlayer { newState with players := newPlayers } total player.id false card logs
      else
        let logs := logs ++ [createLog LogMsg.jailStay LogType.warning]
        let newPlayers := updateFirst newState.players player.id
          (fun p => { p with jailTurns := p.jailTurns + 1, consecutiveDoubles := 0 })
        ({ newState with players := newPlayers, phase := GamePhase.END_TURN }, logs)
  else
    let nextDoublesCount := if isDouble then player.consecutiveDoubles + 1 else 0
    if nextDoublesCount = 3 then
      let logs := logs ++ [createLog LogMsg.speeding LogType.danger]
      let newPlayers := updateFirst newState.players player.id
        (fun p => { p with
            position := 10,
            isInJail := true,
            jailTurns := 0,
            consecutiveDoubles := 0 })
      ({ newState with players := newPlayers, phase := GamePhase.END_TURN }, logs)
    else
      let newPlayers := updateFirst newState.players player.id
        (fun p => { p with consecutiveDoubles := nextDoublesCount })
      let logs := logs ++ [createLog LogMsg.rolled LogType.info]
      movePlayer { newState with players := newPlayers } total player.id isDouble card logs

/-- Embedding of the bounded while-loop in `processEndTurn` that advances the
index past bankrupt players, at most one step per unit of fuel. -/
def processEndTurnLoop (players : List Player) (idx : Nat) (fuel : Nat) : Nat :=
  match fuel with
  | 0 => idx
  | Nat.succ fuel =>
    match players.get? idx with
    | some p =>
      if p.bankrupt then processEndTurnLoop players ((idx + 1) % players.length) fuel
      else idx
    | none => idx

/-- Embedding of `processEndTurn`: advance the index skipping bankrupt
players (bounded by the player count) and check the win condition. -/
def processEndTurn (state : GameState) (logs : List LogEntry) : GameState × List LogEntry :=
  let nextIndex := (state.currentPlayerIndex + 1) % state.players.length
  let nextIndex := processEndTurnLoop state.players nextIndex state.players.length
  let activePlayers := state.players.filter (fun p => !p.bankrupt)
  if activePlayers.length ≤ 1 then
    ({ state with winner := activePlayers.head?, phase := GamePhase.GAME_OVER }, logs)
  else
    ({ state with
        currentPlayerIndex := nextIndex,
        phase := GamePhase.ROLLING,
        waitingForDoublesTurn := false }, logs)

/-- Embedding of `processSurrender`. -/
def processSurrender (state : GameState) (player : Player) (logs : List LogEntry) :
    GameState × List LogEntry :=
  let logs := logs ++ [createLog LogMsg.surrendered LogType.danger]
  let newPlayers := updateFirst state.players player.id
    (fun p => { p with bankrupt := true, money := 0 })
  let newTiles := state.tiles.map (fun t =>
    if t.ownerId = some player.id then { t with ownerId := none, houseCount := some 0 } else t)
  let isTurn := isTurnOf state player.id
  let nextState := { state with players := newPlayers, tiles := newTiles }
  if isTurn then
    processEndTurn nextState logs
  else
    let activePlayers := nextState.players.filter (fun p => !p.bankrupt)
    if activePlayers.length ≤ 1 then
      ({ nextState with winner := activePlayers.head?, phase := GamePhase.GAME_OVER }, logs)
    else
      (nextState, logs)

/-- Embedding of `processPayBail`. -/
def processPayBail (state : GameState) (player : Player) (logs : List LogEntry) :
    GameState × List LogEntry :=
  if player.money < 50 then
    (state, logs ++ [createLog LogMsg.bailShort LogType.warning])
  else
    let newPlayers := updateFirst state.players player.id
      (fun p => { p with
          money := p.money - 50,
          isInJail := false,
          jailTurns := 0,
          consecutiveDoubles := 0 })
    ({ state with players := newPlayers },
     logs ++ [createLog LogMsg.bailPaid LogType.success])

/-- Embedding of `processUpgrade`.  The source checks only that a tile is
selected, that it has a house cost (JS truthiness also rejects cost 0),
affordability and the tier cap; it never checks ownership or the color
group. -/
def processUpgrade (state : GameState) (player : Player) (logs : List LogEntry) :
    GameState × List LogEntry :=
  match state.selectedTileId with
  | none => (state, logs)
  | some tid =>
    match findTile state.tiles tid with
    | none => (state, logs)
    | some tile =>
      match tile.houseCost with
      | none => (state, logs)
      | some hc =>
        if hc = 0 then (state, logs)
        else if player.money < hc then
          (state, logs ++ [createLog LogMsg.upgradeShort LogType.warning])
        else if tile.houseCount.getD 0 ≠ 0 ∧ tile.houseCount.getD 0 ≥ 5 then
          (state, logs ++ [createLog LogMsg.upgradeMaxed LogType.warning])
        else
          let newPlayers := updateFirst state.players player.id
            (fun p => { p with money := p.money - hc })
          let newTiles := updateFirstTile state.tiles tile.id
            (fun _ => { tile with houseCount := some (tile.houseCount.getD 0 + 1) })
          ({ state with players := newPlayers, tiles := newTiles },
           logs ++ [createLog LogMsg.upgraded LogType.success])

/-- Embedding of `processPass`. -/
def processPass (state : GameState) (_player : Player) (logs : List LogEntry) :
    GameState × List LogEntry :=
  ({ state with
      phase := if state.waitingForDoublesTurn then GamePhase.ROLLING else GamePhase.END_TURN },
   logs ++ [createLog LogMsg.declinedBuy LogType.info])

/-- Embedding of `processBuy`.  The source checks only price truthiness and
affordability at the current position; it does not check the phase or whether
the tile is already owned. -/
def processBuy (state : GameState) (player : Player) (logs : List LogEntry) :
    GameState × List LogEntry :=
  match tileAt state.tiles player.position with
  | none => (state, logs)
  | some tile =>
    match tile.price with
    | none => (state, logs)
    | some price =>
      if price = 0 ∨ player.money < price then (state, logs)
      else
        let newPlayers := updateFirst state.players player.id
          (fun p => { p with
              money := p.money - price,
              properties := p.properties ++ [tile.id] })
        let newTiles := setTileAt state.tiles player.position { tile with ownerId := some player.id }
        ({ state with
            players := newPlayers,
            tiles := newTiles,
            phase := if state.waitingForDoublesTurn then GamePhase.ROLLING else GamePhase.END_TURN },
         logs ++ [createLog LogMsg.bought LogType.success])

/-- Embedding of `executeGameLogic`, the host dispatcher: find the acting
player, reject silently unless it is their turn or the action is SURRENDER,
then run the matching processor and store the accumulated log list. -/
def executeGameLogic (prevState : GameState) (action : NetworkAction)
    (d1 d2 : Nat) (card : ChanceCard) : GameState :=
  match findPlayer prevState.players action.playerId with
  | none => prevState
  | some player =>
    let isTurn := isTurnOf prevState player.id
    if isTurn = false ∧ action.type ≠ ActionType.SURRENDER then prevState
    else
      let logs := prevState.logs
      let res :=
        match action.type with
        | ActionType.ROLL => processRoll prevState player d1 d2 card logs
        | ActionType.BUY => processBuy prevState player logs
        | ActionType.PASS => processPass prevState player logs
        | ActionType.PAY_BAIL => processPayBail prevState player logs
        | ActionType.UPGRADE => processUpgrade prevState player logs
        | ActionType.END_TURN => processEndTurn prevState logs
        | ActionType.SURRENDER => processSurrender prevState player logs
      { res.1 with logs := res.2 }

/-- Embedding of the `game_state_sync` socket handler: hosts ignore the
broadcast; every other process adopts it, keeping only its local session
fields (`currentUser`, `roomId`) and clearing `isHost`. -/
def onGameStateSync (prev synced : GameState) : GameState :=
  if prev.isHost then prev
  else { synced with
      currentUser := prev.currentUser,
      roomId := prev.roomId,
      isHost := false }

/-- Mutual consistency of tile ownership and player property sets: an owned
tile names a player whose property set holds the tile id, and every id in a
property set names a tile owned by that player. -/
def stateConsistent (s : GameState) : Prop :=
  (∀ t ∈ s.tiles, t.ownerId = none ∨
     ∃ p ∈ s.players, t.ownerId = some p.id ∧ t.id ∈ p.properties) ∧
  (∀ p ∈ s.players, ∀ tid ∈ p.properties,
     ∃ t ∈ s.tiles, t.id = tid ∧ t.ownerId = some p.id)

instance (s : GameState) : Decidable (stateConsistent s) := by
  unfold stateConsistent; infer_instance

/-- Every tile of a state sits at the index equal to its id (true of the
fixed 40-tile board and preserved by the game logic). -/
def tilesIndexed (s : GameState) : Prop :=
  ∀ i t, tileAt s.tiles i = some t → t.id = i

/-! Concrete sample inputs used by witnesses and counterexamples. -/

/-- A money card with value 0: a neutral stand-in for the chance draw in
scenarios whose landing tile is not a card tile. -/
def cardM0 : ChanceCard := { id := 0, effectType := CardEffect.MONEY, value := 0, descMentionsJail := false }

def mkPlayer (pid : String) (m : Int) (pos : Nat) (props : List Nat) : Player :=
  { id := pid, money := m, position := pos, isInJail := false, jailTurns := 0,
    consecutiveDoubles := 0, properties := props, bankrupt := false }

def mkProp (i : Nat) (g : ColorGroup) (pr : Int) (r0 : Int) (own : Option String) : Tile :=
  { id := i, type := TileType.PROPERTY, price := some pr, rent := some [r0, 10, 30, 90, 160, 250],
    group := g, ownerId := own, houseCost := some 50, houseCount := some 0 }

def startTile : Tile :=
  { id := 0, type := TileType.START, price := none, rent := none, group := ColorGroup.NONE,
    ownerId := none, houseCost := none, houseCount := some 0 }

def mkState (ps : List Player) (ts : List Tile) : GameState :=
  { players := ps, currentPlayerIndex := 0, tiles := ts, dice := (1, 2),
    phase := GamePhase.ROLLING, logs := [], winner := none, currentCard := none,
    selectedTileId := none, waitingForDoublesTurn := false, currentUser := none,
    roomId := none, isHost := true }

def plainTile (i : Nat) : Tile := { startTile with id := i }

def parkingTile (i : Nat) : Tile := { startTile with id := i, type := TileType.PARKING }

def taxTile (i : Nat) : Tile :=
  { id := i, type := TileType.TAX, price := some 100, rent := none, group := ColorGroup.NONE,
    ownerId := none, houseCost := none, houseCount := some 0 }

/-- Two players; player A holds tile 3; tile 1 belongs to B and its rent
bankrupts A. -/
def stateC1 : GameState := mkState
  [mkPlayer "A" 1 1 [3], mkPlayer "B" 500 0 [1]]
  [startTile, mkProp 1 ColorGroup.BROWN 60 2 (some "B"), mkProp 2 ColorGroup.BROWN 60 4 none,
   mkProp 3 ColorGroup.LIGHT_BLUE 100 6 (some "A")]

/-- Three players, so that a rent bankruptcy leaves two active players and
takes the tile-release branch. -/
def stateRent3 : GameState := mkState
  [mkPlayer "A" 1 1 [3], mkPlayer "B" 500 0 [1], mkPlayer "C" 500 0 []]
  [startTile, mkProp 1 ColorGroup.BROWN 60 2 (some "B"), mkProp 2 ColorGroup.BROWN 60 4 none,
   mkProp 3 ColorGroup.LIGHT_BLUE 100 6 (some "A")]

/-- Player A stands on a tax tile with less money than the tax. -/
def stateTax : GameState :=
  mkState [mkPlayer "A" 50 1 [], mkPlayer "B" 500 0 []] [startTile, taxTile 1]

/-- Board with a jail tile at 10 and a parking tile at 13, used for jail-roll
scenarios (a 1+2 roll from jail lands on neutral parking). -/
def boardJail : List Tile :=
  [startTile, plainTile 1, plainTile 2, plainTile 3, plainTile 4, plainTile 5,
   plainTile 6, plainTile 7, plainTile 8, plainTile 9,
   { startTile with id := 10, type := TileType.JAIL },
   plainTile 11, plainTile 12, parkingTile 13]

/-- Jailed player A with two failed jail turns and little money: the forced
bail leaves the balance negative. -/
def jailedA2 : Player := { mkPlayer "A" 20 10 [] with isInJail := true, jailTurns := 2 }

def stateBail : GameState := mkState [jailedA2, mkPlayer "B" 500 0 []] boardJail

/-- Jailed player A, no failed attempts yet. -/
def jailedA0 : Player := { mkPlayer "A" 500 10 [] with isInJail := true, jailTurns := 0 }

def stateJail0 : GameState := mkState [jailedA0, mkPlayer "B" 500 0 []] boardJail

/-- Free player A with two consecutive doubles already on record. -/
def freeA2 : Player := { mkPlayer "A" 500 0 [] with consecutiveDoubles := 2 }

def stateDoubles2 : GameState := mkState [freeA2, mkPlayer "B" 500 0 []] boardJail

/-- Tile 1 is owned by B and selected, while A (who owns nothing of the
group) is the acting player: the host still applies the upgrade. -/
def stateUpgrade : GameState :=
  { mkState [mkPlayer "A" 500 0 [], mkPlayer "B" 500 0 [1]]
      [startTile, mkProp 1 ColorGroup.BROWN 60 2 (some "B"), mkProp 2 ColorGroup.BROWN 60 4 none]
    with selectedTileId := some 1 }

/-- It is the turn of A; B will try to act. -/
def stateWrongTurn : GameState :=
  mkState [mkPlayer "A" 500 0 [], mkPlayer "B" 500 0 []] [startTile, taxTile 1]

/-- Three players; B owns tile 1 and surrenders out of turn. -/
def stateSurrender3 : GameState := mkState
  [mkPlayer "A" 500 0 [], mkPlayer "B" 300 0 [1], mkPlayer "C" 500 0 []]
  [startTile, mkProp 1 ColorGroup.BROWN 60 2 (some "B"), mkProp 2 ColorGroup.BROWN 60 4 none]

/-- Non-host local state with a tile selected. -/
def prevC6 : GameState :=
  { mkState [] [] with
      isHost := false,
      selectedTileId := some 5,
      currentUser := some "u",
      roomId := some "r" }

/-- Incoming broadcast whose selection differs from the local one. -/
def syncC6 : GameState :=
  { mkState [mkPlayer "A" 500 0 []] [startTile] with
      selectedTileId := none,
      phase := GamePhase.END_TURN,
      isHost := true }

/-- B owns the whole BROWN group; tile 1 is unimproved, so A pays double
rent when landing there. -/
def stateMonopoly : GameState := mkState
  [mkPlayer "A" 500 1 [], mkPlayer "B" 500 0 [1, 2]]
  [startTile, mkProp 1 ColorGroup.BROWN 60 2 (some "B"), mkProp 2 ColorGroup.BROWN 60 4 (some "B")]

/-- A stands on the unowned tile 1 while the phase is END_TURN: the buy is
still applied. -/
def stateBuyOddPhase : GameState :=
  { mkState [mkPlayer "A" 500 1 [], mkPlayer "B" 500 0 []]
      [startTile, mkProp 1 ColorGroup.BROWN 60 2 none, mkProp 2 ColorGroup.BROWN 60 4 none]
    with phase := GamePhase.END_TURN }

/-- A consistent mid-game state whose phase is already GAME_OVER. -/
def stateOver : GameState :=
  { mkState [mkPlayer "A" 500 0 [], mkPlayer "B" 500 0 []] boardJail
    with phase := GamePhase.GAME_OVER }

/-- Rent for a standard property as the specification words it: exactly twice
the tier-0 rent when the tile is unimproved and the owner holds every tile of
its color group, else the tier value indexed by the current building count. -/
def specPropertyRent (tiles : List Tile) (tile : Tile) (ownerId : String) : Int :=
  if (tile.houseCount = some 0 ∨ tile.houseCount = none) ∧
      checkOwnsGroup (some ownerId) tile.group tiles = true then
    2 * (tile.rent.getD []).getD 0 0
  else
    (tile.rent.getD []).getD (tile.houseCount.getD 0) 0

/-! Helper lemmas on the find / update-first patterns. -/

theorem findPlayer_eq_some {ps : List Player} {pid : String} {p : Player}
    (h : findPlayer ps pid = some p) : p ∈ ps ∧ p.id = pid := by
  induction ps with
  | nil => simp [findPlayer] at h
  | cons q rest ih =>
    by_cases hq : q.id = pid
    · simp only [findPlayer, if_pos hq, Option.some.injEq] at h
      subst h
      exact ⟨List.mem_cons_self _ _, hq⟩
    · simp only [findPlayer, if_neg hq] at h
      obtain ⟨hm, hid⟩ := ih h
      exact ⟨List.mem_cons_of_mem _ hm, hid⟩

theorem findPlayer_updateFirst_self (ps : List Player) (pid : String) (f : Player → Player)
    (hf : ∀ q, (f q).id = q.id) :
    findPlayer (updateFirst ps pid f) pid = (findPlayer ps pid).map f := by
  induction ps with
  | nil => simp [findPlayer, updateFirst]
  | cons q rest ih =>
    by_cases hq : q.id = pid
    · have hfq : (f q).id = pid := by rw [hf]; exact hq
      simp [findPlayer, updateFirst, hq, hfq]
    · have hfq : ¬ (f q).id = pid := by rw [hf]; exact hq
      simp [findPlayer, updateFirst, hq, ih]

theorem findPlayer_updateFirst_ne (ps : List Player) (pid qid : String) (f : Player → Player)
    (hne : qid ≠ pid) (hf : ∀ q, (f q).id = q.id) :
    findPlayer (updateFirst ps pid f) qid = findPlayer ps qid := by
  induction ps with
  | nil => simp [updateFirst]
  | cons q rest ih =>
    by_cases hq : q.id = pid
    · have h1 : ¬ (f q).id = qid := by
        rw [hf, hq]; exact fun h => hne h.symm
      have h2 : ¬ q.id = qid := by
        rw [hq]; exact fun h => hne h.symm
      have h3 : ¬ pid = qid := fun h => hne h.symm
      simp [findPlayer, updateFirst, hq, h1, h2, h3]
    · simp [findPlayer, updateFirst, hq, ih]

theorem updateFirst_map_bankrupt (ps : List Player) (pid : String) (f : Player → Player)
    (hf : ∀ q, (f q).bankrupt = q.bankrupt) :
    (updateFirst ps pid f).map Player.bankrupt = ps.map Player.bankrupt := by
  induction ps with
  | nil => rfl
  | cons q rest ih =>
    by_cases hq : q.id = pid
    · simp [updateFirst, hq, hf]
    · simp [updateFirst, hq, ih]

theorem mem_updateFirst {ps : List Player} {pid : String} {f : Player → Player} {q : Player}
    (h : q ∈ updateFirst ps pid f) : q ∈ ps ∨ ∃ r ∈ ps, r.id = pid ∧ q = f r := by
  induction ps with
  | nil => simp [updateFirst] at h
  | cons r rest ih =>
    by_cases hr : r.id = pid
    · simp only [updateFirst, if_pos hr, List.mem_cons] at h
      rcases h with h | h
      · exact Or.inr ⟨r, List.mem_cons_self _ _, hr, h⟩
      · exact Or.inl (List.mem_cons_of_mem _ h)
    · simp only [updateFirst, if_neg hr, List.mem_cons] at h
      rcases h with h | h
      · exact Or.inl (h ▸ List.mem_cons_self _ _)
      · rcases ih h with h | ⟨u, hu, hid, he⟩
        · exact Or.inl (List.mem_cons_of_mem _ h)
        · exact Or.inr ⟨u, List.mem_cons_of_mem _ hu, hid, he⟩

theorem mem_updateFirst_of_ne {ps : List Player} {pid : String} {f : Player → Player} {q : Player}
    (h : q ∈ ps) (hne : q.id ≠ pid) : q ∈ updateFirst ps pid f := by
  induction ps with
  | nil => simp at h
  | cons r rest ih =>
    rcases List.mem_cons.mp h with h | h
    · subst h
      simp [updateFirst, if_neg hne]
    · by_cases hr : r.id = pid
      · simp [updateFirst, hr, List.mem_cons_of_mem _ h]
      · simp only [updateFirst, if_neg hr, List.mem_cons]
        exact Or.inr (ih h)

theorem findPlayer_mem_updateFirst {ps : List Player} {pid : String} {p : Player}
    (f : Player → Player) (h : findPlayer ps pid = some p) :
    f p ∈ updateFirst ps pid f := by
  induction ps with
  | nil => simp [findPlayer] at h
  | cons q rest ih =>
    by_cases hq : q.id = pid
    · simp only [findPlayer, if_pos hq, Option.some.injEq] at h
      subst h
      simp [updateFirst, hq]
    · simp only [findPlayer, if_neg hq] at h
      simp only [updateFirst, if_neg hq, List.mem_cons]
      exact Or.inr (ih h)

/-! Helper lemmas on tile-array access. -/

theorem tileAt_setTileAt_self {ts : List Tile} {i : Nat} (t : Tile) (h : i < ts.length) :
    tileAt (setTileAt ts i t) i = some t := by
  induction ts generalizing i with
  | nil => simp at h
  | cons u rest ih =>
    cases i with
    | zero => rfl
    | succ j => exact ih (Nat.lt_of_succ_lt_succ h)

theorem tileAt_setTileAt_ne {ts : List Tile} {i j : Nat} (t : Tile) (h : j ≠ i) :
    tileAt (setTileAt ts i t) j = tileAt ts j := by
  induction ts generalizing i j with
  | nil => cases i <;> rfl
  | cons u rest ih =>
    cases i with
    | zero =>
      cases j with
      | zero => exact absurd rfl h
      | succ k => rfl
    | succ i =>
      cases j with
      | zero => rfl
      | succ k => exact ih fun he => h (by rw [he])

theorem mem_of_tileAt {ts : List Tile} {i : Nat} {u : Tile} (h : tileAt ts i = some u) :
    u ∈ ts := by
  induction ts generalizing i with
  | nil => simp [tileAt] at h
  | cons t rest ih =>
    cases i with
    | zero =>
      simp only [tileAt, Option.some.injEq] at h
      exact h ▸ List.mem_cons_self _ _
    | succ j => exact List.mem_cons_of_mem _ (ih h)

theorem tileAt_of_mem {ts : List Tile} {u : Tile} (h : u ∈ ts) :
    ∃ i, tileAt ts i = some u := by
  induction ts with
  | nil => simp at h
  | cons t rest ih =>
    rcases List.mem_cons.mp h with h | h
    · exact ⟨0, by simp [tileAt, h]⟩
    · obtain ⟨i, hi⟩ := ih h
      exact ⟨i + 1, hi⟩

theorem length_setTileAt (ts : List Tile) (i : Nat) (t : Tile) :
    (setTileAt ts i t).length = ts.length := by
  induction ts generalizing i with
  | nil => rfl
  | cons u rest ih =>
    cases i with
    | zero => rfl
    | succ j => simp [setTileAt, ih]

theorem tileAt_lt_length {ts : List Tile} {i : Nat} {u : Tile} (h : tileAt ts i = some u) :
    i < ts.length := by
  induction ts generalizing i with
  | nil => simp [tileAt] at h
  | cons t rest ih =>
    cases i with
    | zero => simp
    | succ j => exact Nat.succ_lt_succ (ih h)

theorem findTile_updateFirstTile_self (ts : List Tile) (tid : Nat) (f : Tile → Tile)
    (hf : ∀ t, t.id = tid → (f t).id = tid) :
    findTile (updateFirstTile ts tid f) tid = (findTile ts tid).map f := by
  induction ts with
  | nil => simp [findTile, updateFirstTile]
  | cons t rest ih =>
    by_cases ht : t.id = tid
    · simp [findTile, updateFirstTile, ht, hf t ht]
    · simp [findTile, updateFirstTile, ht, ih]

/-! Claim C6. -/

/-- C6 counterexample: the claim says the purely-local selected-tile id is
preserved across an incoming broadcast, but the sync handler copies
`selectedTileId` from the broadcast: a non-host with tile 5 selected ends up
with the selection of the incoming snapshot (here: none). -/
theorem claimC6_counterexample :
    prevC6.isHost = false ∧ prevC6.selectedTileId = some 5 ∧
    (onGameStateSync prevC6 syncC6).selectedTileId = none := by decide

/-- C6 (amended): a non-host process adopts the received broadcast as the
complete truth, preserving only its local session fields `currentUser` and
`roomId` (and clearing `isHost`); the selected-tile id is taken from the
broadcast, overwriting the local selection. -/
theorem claimC6_amended (prev synced : GameState) (h : prev.isHost = false) :
    (onGameStateSync prev synced).selectedTileId = synced.selectedTileId ∧
    (onGameStateSync prev synced).players = synced.players ∧
    (onGameStateSync prev synced).tiles = synced.tiles ∧
    (onGameStateSync prev synced).phase = synced.phase ∧
    (onGameStateSync prev synced).dice = synced.dice ∧
    (onGameStateSync prev synced).logs = synced.logs ∧
    (onGameStateSync prev synced).winner = synced.winner ∧
    (onGameStateSync prev synced).currentPlayerIndex = synced.currentPlayerIndex ∧
    (onGameStateSync prev synced).currentUser = prev.currentUser ∧
    (onGameStateSync prev synced).roomId = prev.roomId ∧
    (onGameStateSync prev synced).isHost = false := by
  simp [onGameStateSync, h]

theorem claimC6_witness :
    (onGameStateSync prevC6 syncC6).selectedTileId = syncC6.selectedTileId ∧
    (onGameStateSync prevC6 syncC6).players = syncC6.players ∧
    (onGameStateSync prevC6 syncC6).tiles = syncC6.tiles ∧
    (onGameStateSync prevC6 syncC6).phase = syncC6.phase ∧
    (onGameStateSync prevC6 syncC6).dice = syncC6.dice ∧
    (onGameStateSync prevC6 syncC6).logs = syncC6.logs ∧
    (onGameStateSync prevC6 syncC6).winner = syncC6.winner ∧
    (onGameStateSync prevC6 syncC6).currentPlayerIndex = syncC6.currentPlayerIndex ∧
    (onGameStateSync prevC6 syncC6).currentUser = prevC6.currentUser ∧
    (onGameStateSync prevC6 syncC6).roomId = prevC6.roomId ∧
    (onGameStateSync prevC6 syncC6).isHost = false :=
  claimC6_amended prevC6 syncC6 rfl

/-! Claim C5. -/

/-- C5 counterexample: the claim says a wrong-turn intent is rejected with a
warning appended to the log; in fact the dispatcher returns the previous
state unchanged, appending nothing (here B rolls during the turn of A and
the log stays empty). -/
theorem claimC5_counterexample :
    isTurnOf stateWrongTurn "B" = false ∧
    executeGameLogic stateWrongTurn ⟨ActionType.ROLL, "B"⟩ 1 2 cardM0 = stateWrongTurn ∧
    (executeGameLogic stateWrongTurn ⟨ActionType.ROLL, "B"⟩ 1 2 cardM0).logs = [] := by decide

/-- C5 (amended): on the host, an intent whose acting player is not the
current-turn player is rejected silently — the state, log included, is left
unchanged — except a surrender intent, which is processed for any player
found in the roster (the bankrupt flag is not checked): the player is marked
bankrupt with money zeroed, every tile they own is released, their turn is
immediately ended if it was their turn, and otherwise the win condition is
re-evaluated in place. -/
theorem claimC5_amended :
    (∀ (s : GameState) (a : NetworkAction) (p : Player) (d1 d2 : Nat) (card : ChanceCard),
      findPlayer s.players a.playerId = some p →
      isTurnOf s p.id = false →
      a.type ≠ ActionType.SURRENDER →
      executeGameLogic s a d1 d2 card = s) ∧
    (∀ (s : GameState) (pid : String) (p : Player) (d1 d2 : Nat) (card : ChanceCard),
      findPlayer s.players pid = some p →
      isTurnOf s p.id = false →
      (executeGameLogic s ⟨ActionType.SURRENDER, pid⟩ d1 d2 card).players =
        updateFirst s.players p.id (fun q => { q with bankrupt := true, money := 0 }) ∧
      (executeGameLogic s ⟨ActionType.SURRENDER, pid⟩ d1 d2 card).tiles =
        s.tiles.map (fun t => if t.ownerId = some p.id then
          { t with ownerId := none, houseCount := some 0 } else t) ∧
      (executeGameLogic s ⟨ActionType.SURRENDER, pid⟩ d1 d2 card).logs =
        s.logs ++ [createLog LogMsg.surrendered LogType.danger] ∧
      (((updateFirst s.players p.id (fun q => { q with bankrupt := true, money := 0 })).filter
          (fun q => !q.bankrupt)).length ≤ 1 →
        (executeGameLogic s ⟨ActionType.SURRENDER, pid⟩ d1 d2 card).phase = GamePhase.GAME_OVER ∧
        (executeGameLogic s ⟨ActionType.SURRENDER, pid⟩ d1 d2 card).winner =
          ((updateFirst s.players p.id (fun q => { q with bankrupt := true, money := 0 })).filter
            (fun q => !q.bankrupt)).head?) ∧
      (1 < ((updateFirst s.players p.id (fun q => { q with bankrupt := true, money := 0 })).filter
          (fun q => !q.bankrupt)).length →
        (executeGameLogic s ⟨ActionType.SURRENDER, pid⟩ d1 d2 card).phase = s.phase ∧
        (executeGameLogic s ⟨ActionType.SURRENDER, pid⟩ d1 d2 card).currentPlayerIndex =
          s.currentPlayerIndex ∧
        (executeGameLogic s ⟨ActionType.SURRENDER, pid⟩ d1 d2 card).winner = s.winner)) ∧
    (∀ (s : GameState) (pid : String) (p : Player) (d1 d2 : Nat) (card : ChanceCard),
      findPlayer s.players pid = some p →
      isTurnOf s p.id = true →
      (executeGameLogic s ⟨ActionType.SURRENDER, pid⟩ d1 d2 card).players =
        updateFirst s.players p.id (fun q => { q with bankrupt := true, money := 0 }) ∧
      (executeGameLogic s ⟨ActionType.SURRENDER, pid⟩ d1 d2 card).tiles =
        s.tiles.map (fun t => if t.ownerId = some p.id then
          { t with ownerId := none, houseCount := some 0 } else t) ∧
      (((updateFirst s.players p.id (fun q => { q with bankrupt := true, money := 0 })).filter
          (fun q => !q.bankrupt)).length ≤ 1 →
        (executeGameLogic s ⟨ActionType.SURRENDER, pid⟩ d1 d2 card).phase = GamePhase.GAME_OVER ∧
        (executeGameLogic s ⟨ActionType.SURRENDER, pid⟩ d1 d2 card).winner =
          ((updateFirst s.players p.id (fun q => { q with bankrupt := true, money := 0 })).filter
            (fun q => !q.bankrupt)).head?) ∧
      (1 < ((updateFirst s.players p.id (fun q => { q with bankrupt := true, money := 0 })).filter
          (fun q => !q.bankrupt)).length →
        (executeGameLogic s ⟨ActionType.SURRENDER, pid⟩ d1 d2 card).phase = GamePhase.ROLLING ∧
        (executeGameLogic s ⟨ActionType.SURRENDER, pid⟩ d1 d2 card).waitingForDoublesTurn = false ∧
        (executeGameLogic s ⟨ActionType.SURRENDER, pid⟩ d1 d2 card).currentPlayerIndex =
          processEndTurnLoop
            (updateFirst s.players p.id (fun q => { q with bankrupt := true, money := 0 }))
            ((s.currentPlayerIndex + 1) %
              (updateFirst s.players p.id (fun q => { q with bankrupt := true, money := 0 })).length)
            (updateFirst s.players p.id (fun q => { q with bankrupt := true, money := 0 })).length)) := by
  refine ⟨?_, ?_, ?_⟩
  · intro s a p d1 d2 card hf ht hty
    simp [executeGameLogic, hf, ht, hty]
  · intro s pid p d1 d2 card hf ht
    by_cases hl : ((updateFirst s.players p.id
        (fun q => { q with bankrupt := true, money := 0 })).filter
        (fun q => !q.bankrupt)).length ≤ 1
    · simp [executeGameLogic, hf, processSurrender, ht, hl]
    · simp [executeGameLogic, hf, processSurrender, ht, hl]
  · intro s pid p d1 d2 card hf ht
    by_cases hl : ((updateFirst s.players p.id
        (fun q => { q with bankrupt := true, money := 0 })).filter
        (fun q => !q.bankrupt)).length ≤ 1
    · simp [executeGameLogic, hf, processSurrender, processEndTurn, ht, hl]
    · simp [executeGameLogic, hf, processSurrender, processEndTurn, ht, hl]

theorem claimC5_witness :
    executeGameLogic stateWrongTurn ⟨ActionType.ROLL, "B"⟩ 1 2 cardM0 = stateWrongTurn ∧
    (executeGameLogic stateSurrender3 ⟨ActionType.SURRENDER, "B"⟩ 1 2 cardM0).tiles =
      stateSurrender3.tiles.map (fun t => if t.ownerId = some "B" then
        { t with ownerId := none, houseCount := some 0 } else t) := by
  constructor
  · exact claimC5_amended.1 stateWrongTurn ⟨ActionType.ROLL, "B"⟩ (mkPlayer "B" 500 0 []) 1 2
      cardM0 (by decide) (by decide) (by decide)
  · exact (claimC5_amended.2.1 stateSurrender3 "B" (mkPlayer "B" 300 0 [1]) 1 2 cardM0
      (by decide) (by decide)).2.1

/-! Claim C7. -/

/-- C7 (confirmed): on a roll while jailed — a double releases the player,
resets the jail-turn and doubles counters and proceeds to move by the full
roll total; a non-double with the jail-turn counter already at 2
force-releases, deducts the fixed 50 bail fee and still moves by the roll
total; any other non-double increments the jail-turn counter and ends the
turn immediately with no movement. -/
theorem claimC7 :
    (∀ (s : GameState) (p : Player) (d1 d2 : Nat) (card : ChanceCard) (logs : List LogEntry),
      p.isInJail = true → d1 = d2 →
      processRoll s p d1 d2 card logs =
        movePlayer
          { s with
              dice := (d1, d2),
              waitingForDoublesTurn := false,
              players := updateFirst s.players p.id
                (fun q => { q with isInJail := false, jailTurns := 0, consecutiveDoubles := 0 }) }
          (d1 + d2) p.id false card
          (logs ++ [createLog LogMsg.jailDoubleEscape LogType.success])) ∧
    (∀ (s : GameState) (p : Player) (d1 d2 : Nat) (card : ChanceCard) (logs : List LogEntry),
      p.isInJail = true → d1 ≠ d2 → p.jailTurns = 2 →
      processRoll s p d1 d2 card logs =
        movePlayer
          { s with
              dice := (d1, d2),
              waitingForDoublesTurn := false,
              players := updateFirst s.players p.id
                (fun q => { q with
                    money := q.money - 50, isInJail := false, jailTurns := 0,
                    consecutiveDoubles := 0 }) }
          (d1 + d2) p.id false card
          (logs ++ [createLog LogMsg.jailForcedBail LogType.warning])) ∧
    (∀ (s : GameState) (p : Player) (d1 d2 : Nat) (card : ChanceCard) (logs : List LogEntry),
      p.isInJail = true → d1 ≠ d2 → p.jailTurns < 2 →
      processRoll s p d1 d2 card logs =
        ({ s with
            dice := (d1, d2),
            waitingForDoublesTurn := false,
            players := updateFirst s.players p.id
              (fun q => { q with jailTurns := q.jailTurns + 1, consecutiveDoubles := 0 }),
            phase := GamePhase.END_TURN },
         logs ++ [createLog LogMsg.jailStay LogType.warning])) := by
  refine ⟨?_, ?_, ?_⟩
  · intro s p d1 d2 card logs hj hd
    subst hd
    simp [processRoll, hj]
  · intro s p d1 d2 card logs hj hd h2
    simp [processRoll, hj, hd, h2]
  · intro s p d1 d2 card logs hj hd h2
    have h3 : ¬ p.jailTurns ≥ 2 := Nat.not_le.mpr h2
    simp [processRoll, hj, hd, h3]

theorem claimC7_witness :
    processRoll stateJail0 jailedA0 3 3 cardM0 [] =
      movePlayer
        { stateJail0 with
            dice := (3, 3),
            waitingForDoublesTurn := false,
            players := updateFirst stateJail0.players jailedA0.id
              (fun q => { q with isInJail := false, jailTurns := 0, consecutiveDoubles := 0 }) }
        6 jailedA0.id false cardM0 [createLog LogMsg.jailDoubleEscape LogType.success] ∧
    processRoll stateBail jailedA2 1 2 cardM0 [] =
      movePlayer
        { stateBail with
            dice := (1, 2),
            waitingForDoublesTurn := false,
            players := updateFirst stateBail.players jailedA2.id
              (fun q => { q with
                  money := q.money - 50, isInJail := false, jailTurns := 0,
                  consecutiveDoubles := 0 }) }
        3 jailedA2.id false cardM0 [createLog LogMsg.jailForcedBail LogType.warning] ∧
    processRoll stateJail0 jailedA0 1 2 cardM0 [] =
      ({ stateJail0 with
          dice := (1, 2),
          waitingForDoublesTurn := false,
          players := updateFirst stateJail0.players jailedA0.id
            (fun q => { q with jailTurns := q.jailTurns + 1, consecutiveDoubles := 0 }),
          phase := GamePhase.END_TURN },
       [createLog LogMsg.jailStay LogType.warning]) :=
  ⟨claimC7.1 stateJail0 jailedA0 3 3 cardM0 [] rfl rfl,
   claimC7.2.1 stateBail jailedA2 1 2 cardM0 [] rfl (by decide) rfl,
   claimC7.2.2 stateJail0 jailedA0 1 2 cardM0 [] rfl (by decide) (by decide)⟩

/-! Claim C8. -/

/-- C8 (confirmed): while free, a double increments the consecutive-doubles
counter and a non-double resets it to 0; the speeding incarceration happens
exactly when the counter would reach 3 (the player is put on tile 10, marked
jailed with both counters reset, and the turn ends with no movement or
landing resolution); otherwise the roll proceeds to normal movement with the
updated counter. -/
theorem claimC8 :
    (∀ (s : GameState) (p : Player) (d1 d2 : Nat) (card : ChanceCard) (logs : List LogEntry),
      p.isInJail = false → d1 = d2 → p.consecutiveDoubles + 1 = 3 →
      processRoll s p d1 d2 card logs =
        ({ s with
            dice := (d1, d2),
            waitingForDoublesTurn := false,
            players := updateFirst s.players p.id
              (fun q => { q with
                  position := 10, isInJail := true, jailTurns := 0,
                  consecutiveDoubles := 0 }),
            phase := GamePhase.END_TURN },
         logs ++ [createLog LogMsg.speeding LogType.danger])) ∧
    (∀ (s : GameState) (p : Player) (d1 d2 : Nat) (card : ChanceCard) (logs : List LogEntry),
      p.isInJail = false → d1 = d2 → p.consecutiveDoubles + 1 ≠ 3 →
      processRoll s p d1 d2 card logs =
        movePlayer
          { s with
              dice := (d1, d2),
              waitingForDoublesTurn := false,
              players := updateFirst s.players p.id
                (fun q => { q with consecutiveDoubles := p.consecutiveDoubles + 1 }) }
          (d1 + d2) p.id true card
          (logs ++ [createLog LogMsg.rolled LogType.info])) ∧
    (∀ (s : GameState) (p : Player) (d1 d2 : Nat) (card : ChanceCard) (logs : List LogEntry),
      p.isInJail = false → d1 ≠ d2 →
      processRoll s p d1 d2 card logs =
        movePlayer
          { s with
              dice := (d1, d2),
              waitingForDoublesTurn := false,
              players := updateFirst s.players p.id
                (fun q => { q with consecutiveDoubles := 0 }) }
          (d1 + d2) p.id false card
          (logs ++ [createLog LogMsg.rolled LogType.info])) := by
  refine ⟨?_, ?_, ?_⟩
  · intro s p d1 d2 card logs hj hd h3
    subst hd
    simp [processRoll, hj, h3]
  · intro s p d1 d2 card logs hj hd h3
    subst hd
    simp [processRoll, hj, h3]
  · intro s p d1 d2 card logs hj hd
    simp [processRoll, hj, hd]

theorem claimC8_witness :
    processRoll stateDoubles2 freeA2 2 2 cardM0 [] =
      ({ stateDoubles2 with
          dice := (2, 2),
          waitingForDoublesTurn := false,
          players := updateFirst stateDoubles2.players freeA2.id
            (fun q => { q with
                position := 10, isInJail := true, jailTurns := 0,
                consecutiveDoubles := 0 }),
          phase := GamePhase.END_TURN },
       [createLog LogMsg.speeding LogType.danger]) ∧
    processRoll stateWrongTurn (mkPlayer "A" 500 0 []) 2 2 cardM0 [] =
      movePlayer
        { stateWrongTurn with
            dice := (2, 2),
            waitingForDoublesTurn := false,
            players := updateFirst stateWrongTurn.players (mkPlayer "A" 500 0 []).id
              (fun q => { q with consecutiveDoubles := (mkPlayer "A" 500 0 []).consecutiveDoubles + 1 }) }
        4 (mkPlayer "A" 500 0 []).id true cardM0 [createLog LogMsg.rolled LogType.info] ∧
    processRoll stateDoubles2 freeA2 1 2 cardM0 [] =
      movePlayer
        { stateDoubles2 with
            dice := (1, 2),
            waitingForDoublesTurn := false,
            players := updateFirst stateDoubles2.players freeA2.id
              (fun q => { q with consecutiveDoubles := 0 }) }
        3 freeA2.id false cardM0 [createLog LogMsg.rolled LogType.info] :=
  ⟨claimC8.1 stateDoubles2 freeA2 2 2 cardM0 [] rfl rfl (by decide),
   claimC8.2.1 stateWrongTurn (mkPlayer "A" 500 0 []) 2 2 cardM0 [] rfl rfl (by decide),
   claimC8.2.2 stateDoubles2 freeA2 1 2 cardM0 [] rfl (by decide)⟩


/-! Generic lemmas about the player-array updates done by the rent branch. -/

theorem rentUpdate_findPlayer_payer (ps : List Player) (pid oid : String) (p : Player) (r : Int)
    (hp : findPlayer ps pid = some p) (hne : oid ≠ pid) :
    findPlayer (updateFirst (updateFirst ps pid (fun q => { q with money := q.money - r })) oid
      (fun q => { q with money := q.money + r })) pid = some { p with money := p.money - r } := by
  rw [findPlayer_updateFirst_ne
    (updateFirst ps pid (fun q => { q with money := q.money - r })) oid pid
    (fun q => { q with money := q.money + r }) (Ne.symm hne) (fun q => rfl)]
  rw [findPlayer_updateFirst_self ps pid (fun q => { q with money := q.money - r })
    (fun q => rfl), hp]
  rfl

theorem rentUpdate_findPlayer_owner (ps : List Player) (pid oid : String) (owner : Player) (r : Int)
    (ho : findPlayer ps oid = some owner) (hne : oid ≠ pid) :
    findPlayer (updateFirst (updateFirst ps pid (fun q => { q with money := q.money - r })) oid
      (fun q => { q with money := q.money + r })) oid = some { owner with money := owner.money + r } := by
  rw [findPlayer_updateFirst_self
    (updateFirst ps pid (fun q => { q with money := q.money - r })) oid
    (fun q => { q with money := q.money + r }) (fun q => rfl)]
  rw [findPlayer_updateFirst_ne ps pid oid (fun q => { q with money := q.money - r })
    hne (fun q => rfl), ho]
  rfl

theorem bankruptUpdate_findPlayer_self (ps : List Player) (pid : String) (x : Player)
    (h : findPlayer ps pid = some x) :
    findPlayer (updateFirst ps pid (fun q => { q with bankrupt := true })) pid =
      some { x with bankrupt := true } := by
  rw [findPlayer_updateFirst_self ps pid (fun q => { q with bankrupt := true })
    (fun q => rfl), h]
  rfl

theorem bankruptUpdate_findPlayer_other (ps : List Player) (pid oid : String)
    (hne : oid ≠ pid) :
    findPlayer (updateFirst ps pid (fun q => { q with bankrupt := true })) oid =
      findPlayer ps oid :=
  findPlayer_updateFirst_ne ps pid oid (fun q => { q with bankrupt := true }) hne (fun q => rfl)

/-- Characterization of the player array produced by the rent branch of
`handleLanding` for a landing on a property owned by another active player:
rent is moved between the two accounts and, when the payer goes negative,
the payer is additionally marked bankrupt (regardless of which win-check
continuation is taken). -/
theorem handleLanding_rent_players (s : GameState) (pid oid : String) (p owner : Player)
    (tile : Tile) (isDouble : Bool) (card : ChanceCard) (logs : List LogEntry)
    (hp : findPlayer s.players pid = some p)
    (ht : tileAt s.tiles p.position = some tile)
    (htype : tile.type = TileType.PROPERTY)
    (hown : tile.ownerId = some oid)
    (hne : oid ≠ pid)
    (ho : findPlayer s.players oid = some owner)
    (hob : owner.bankrupt = false) :
    (handleLanding s pid isDouble card logs).1.players =
      (if p.money - (computeRent s tile owner).1 < 0 then
        updateFirst (updateFirst (updateFirst s.players pid
          (fun q => { q with money := q.money - (computeRent s tile owner).1 })) oid
          (fun q => { q with money := q.money + (computeRent s tile owner).1 })) pid
          (fun q => { q with bankrupt := true })
      else
        updateFirst (updateFirst s.players pid
          (fun q => { q with money := q.money - (computeRent s tile owner).1 })) oid
          (fun q => { q with money := q.money + (computeRent s tile owner).1 })) := by
  by_cases hneg : p.money - (computeRent s tile owner).1 < 0
  · simp only [handleLanding, hp, ht, htype, hown, ho, hob, if_pos hneg]
    simp [hne, hneg]
    split
    next res heq =>
      split at heq <;> (injection heq with h; subst h; rfl)
    next heq =>
      split at heq <;> simp at heq
  · simp only [handleLanding, hp, ht, htype, hown, ho, hob, if_neg hneg]
    simp [hne, hneg]

theorem computeRent_property_eq_spec (s : GameState) (tile : Tile) (owner : Player)
    (htype : tile.type = TileType.PROPERTY) :
    (computeRent s tile owner).1 = specPropertyRent s.tiles tile owner.id := by
  by_cases hc : (tile.houseCount = some 0 ∨ tile.houseCount = none) ∧
      checkOwnsGroup (some owner.id) tile.group s.tiles = true
  · have h0 : tile.houseCount.getD 0 = 0 := by
      rcases hc.1 with h | h <;> simp [h]
    simp only [computeRent, specPropertyRent, htype, if_pos hc, if_true, h0]
    cases tile.rent <;> simp [mul_comm]
  · simp only [computeRent, specPropertyRent, htype, if_neg hc, if_true]
    cases tile.rent <;> simp

/-! Claim C9. -/

/-- C9 (confirmed): rent charged for landing on a property owned by another
active player equals exactly twice the tier-0 rent when the tile has zero
buildings and the owner holds every tile of its color group, and otherwise
the rent-tier value indexed by the current building count; the amount is
deducted from the payer and credited to the owner on every continuation of
the branch. -/
theorem claimC9 (s : GameState) (pid oid : String) (p owner : Player) (tile : Tile)
    (isDouble : Bool) (card : ChanceCard) (logs : List LogEntry)
    (hp : findPlayer s.players pid = some p)
    (ht : tileAt s.tiles p.position = some tile)
    (htype : tile.type = TileType.PROPERTY)
    (hown : tile.ownerId = some oid)
    (hne : oid ≠ pid)
    (ho : findPlayer s.players oid = some owner)
    (hob : owner.bankrupt = false) :
    (findPlayer (handleLanding s pid isDouble card logs).1.players pid).map Player.money =
      some (p.money - specPropertyRent s.tiles tile owner.id) ∧
    (findPlayer (handleLanding s pid isDouble card logs).1.players oid).map Player.money =
      some (owner.money + specPropertyRent s.tiles tile owner.id) := by
  have hrent := computeRent_property_eq_spec s tile owner htype
  have h1 := rentUpdate_findPlayer_payer s.players pid oid p ((computeRent s tile owner).1) hp hne
  have h2 := rentUpdate_findPlayer_owner s.players pid oid owner ((computeRent s tile owner).1)
    ho hne
  have h3 := bankruptUpdate_findPlayer_self _ pid _ h1
  have h4 := bankruptUpdate_findPlayer_other
    (updateFirst (updateFirst s.players pid
      (fun q => { q with money := q.money - (computeRent s tile owner).1 })) oid
      (fun q => { q with money := q.money + (computeRent s tile owner).1 })) pid oid hne
  have key := handleLanding_rent_players s pid oid p owner tile isDouble card logs
    hp ht htype hown hne ho hob
  rw [key]
  by_cases hneg : p.money - (computeRent s tile owner).1 < 0
  · rw [if_pos hneg]
    constructor
    · rw [h3]
      simp [← hrent]
    · rw [h4, h2]
      simp [← hrent]
  · rw [if_neg hneg]
    constructor
    · rw [h1]
      simp [← hrent]
    · rw [h2]
      simp [← hrent]

theorem claimC9_witness :
    specPropertyRent stateMonopoly.tiles (mkProp 1 ColorGroup.BROWN 60 2 (some "B")) "B" = 4 ∧
    (findPlayer (handleLanding stateMonopoly "A" false cardM0 []).1.players "A").map Player.money =
      some ((500 : Int) -
        specPropertyRent stateMonopoly.tiles (mkProp 1 ColorGroup.BROWN 60 2 (some "B")) "B") ∧
    (findPlayer (handleLanding stateMonopoly "A" false cardM0 []).1.players "B").map Player.money =
      some ((500 : Int) +
        specPropertyRent stateMonopoly.tiles (mkProp 1 ColorGroup.BROWN 60 2 (some "B")) "B") := by
  refine ⟨by decide, ?_, ?_⟩
  · exact (claimC9 stateMonopoly "A" "B" (mkPlayer "A" 500 1 []) (mkPlayer "B" 500 0 [1, 2])
      (mkProp 1 ColorGroup.BROWN 60 2 (some "B")) false cardM0 []
      (by decide) (by decide) rfl rfl (by decide) (by decide) rfl).1
  · exact (claimC9 stateMonopoly "A" "B" (mkPlayer "A" 500 1 []) (mkPlayer "B" 500 0 [1, 2])
      (mkProp 1 ColorGroup.BROWN 60 2 (some "B")) false cardM0 []
      (by decide) (by decide) rfl rfl (by decide) (by decide) rfl).2

/-! Claim C1. -/

/-- C1 counterexample: with exactly two active players, a rent payment that
drives the payer negative marks them bankrupt and ends the game with the
other player as winner — but the tiles of the bankrupt player are NOT
released: the win check returns before the release step, so tile 3 is still
owned by the bankrupt player A in the terminal state. -/
theorem claimC1_counterexample :
    (stateC1.players.filter (fun q => !q.bankrupt)).length = 2 ∧
    (handleLanding stateC1 "A" false cardM0 []).1.phase = GamePhase.GAME_OVER ∧
    (findPlayer (handleLanding stateC1 "A" false cardM0 []).1.players "A").map Player.bankrupt =
      some true ∧
    (findTile (handleLanding stateC1 "A" false cardM0 []).1.tiles 3).map Tile.ownerId =
      some (some "A") := by decide

/-- C1 (amended): if a rent payment drives the balance of a player below
zero while exactly two non-bankrupt players remain, that player is marked
bankrupt and the other player is immediately recorded as the winner with the
phase set to GAME_OVER — but the tiles of the bankrupt player are NOT
released: the tile array is returned unchanged, because the release step is
only reached when more than one active player remains after the bankruptcy. -/
theorem claimC1_amended (s : GameState) (p q : Player) (tile : Tile)
    (isDouble : Bool) (card : ChanceCard) (logs : List LogEntry)
    (hps : s.players = [p, q])
    (hpb : p.bankrupt = false) (hqb : q.bankrupt = false)
    (hne : p.id ≠ q.id)
    (ht : tileAt s.tiles p.position = some tile)
    (htype : tile.type = TileType.PROPERTY)
    (hown : tile.ownerId = some q.id)
    (hneg : p.money - (computeRent s tile q).1 < 0) :
    (handleLanding s p.id isDouble card logs).1.phase = GamePhase.GAME_OVER ∧
    (handleLanding s p.id isDouble card logs).1.winner =
      some { q with money := q.money + (computeRent s tile q).1 } ∧
    (handleLanding s p.id isDouble card logs).1.tiles = s.tiles ∧
    findPlayer (handleLanding s p.id isDouble card logs).1.players p.id =
      some { p with money := p.money - (computeRent s tile q).1, bankrupt := true } := by
  have hq_ne : q.id ≠ p.id := fun h => hne h.symm
  have hp : findPlayer s.players p.id = some p := by simp [hps, findPlayer]
  have ho : findPlayer s.players q.id = some q := by simp [hps, findPlayer, hne]
  simp only [handleLanding, hp, ht, htype, hown, ho, hqb]
  simp [hq_ne, hne, hneg, hps, updateFirst, findPlayer, List.filter, hqb, hpb]

theorem claimC1_witness :
    (handleLanding stateC1 "A" false cardM0 []).1.phase = GamePhase.GAME_OVER ∧
    (handleLanding stateC1 "A" false cardM0 []).1.winner =
      some { mkPlayer "B" 500 0 [1] with
        money := (mkPlayer "B" 500 0 [1]).money +
          (computeRent stateC1 (mkProp 1 ColorGroup.BROWN 60 2 (some "B"))
            (mkPlayer "B" 500 0 [1])).1 } ∧
    (handleLanding stateC1 "A" false cardM0 []).1.tiles = stateC1.tiles ∧
    findPlayer (handleLanding stateC1 "A" false cardM0 []).1.players "A" =
      some { mkPlayer "A" 1 1 [3] with
        money := (mkPlayer "A" 1 1 [3]).money -
          (computeRent stateC1 (mkProp 1 ColorGroup.BROWN 60 2 (some "B"))
            (mkPlayer "B" 500 0 [1])).1,
        bankrupt := true } :=
  claimC1_amended stateC1 (mkPlayer "A" 1 1 [3]) (mkPlayer "B" 500 0 [1])
    (mkProp 1 ColorGroup.BROWN 60 2 (some "B")) false cardM0 []
    rfl rfl rfl (by decide) (by decide) rfl rfl (by decide)

/-! Claim C3. -/

/-- C3 counterexample: a tax payment that takes the balance below zero does
NOT mark the player bankrupt — player A pays tax 100 with only 50, ends at
-50, stays active and the turn simply ends (no bankruptcy, no release, no
win check). -/
theorem claimC3_counterexample :
    (findPlayer (handleLanding stateTax "A" false cardM0 []).1.players "A").map Player.money =
      some (-50) ∧
    (findPlayer (handleLanding stateTax "A" false cardM0 []).1.players "A").map Player.bankrupt =
      some false ∧
    (handleLanding stateTax "A" false cardM0 []).1.phase = GamePhase.END_TURN := by decide

/-- C3 (amended): only a rent payment that takes the balance of the payer
below zero triggers the bankruptcy path — the payer is marked bankrupt, and
when more than one active player remains, every tile they own is released
(ownership cleared, building count reset to 0) and the turn ends.  Tax
payments and the forced-bail deduction never run the bankruptcy check: the
balance is left negative, no flag is set, no tile is released, and play
continues normally. -/
theorem claimC3_amended :
    (∀ (s : GameState) (p q r : Player) (tile : Tile) (isDouble : Bool) (card : ChanceCard)
       (logs : List LogEntry),
      s.players = [p, q, r] →
      p.bankrupt = false → q.bankrupt = false → r.bankrupt = false →
      p.id ≠ q.id → p.id ≠ r.id → q.id ≠ r.id →
      tileAt s.tiles p.position = some tile →
      tile.type = TileType.PROPERTY →
      tile.ownerId = some q.id →
      p.money - (computeRent s tile q).1 < 0 →
      (handleLanding s p.id isDouble card logs).1.tiles =
        s.tiles.map (fun t => if t.ownerId = some p.id then
          { t with ownerId := none, houseCount := some 0 } else t) ∧
      findPlayer (handleLanding s p.id isDouble card logs).1.players p.id =
        some { p with money := p.money - (computeRent s tile q).1, bankrupt := true } ∧
      (handleLanding s p.id isDouble card logs).1.phase = GamePhase.END_TURN ∧
      (handleLanding s p.id isDouble card logs).1.waitingForDoublesTurn = false) ∧
    (∀ (s : GameState) (pid : String) (p : Player) (tile : Tile) (tx : Int) (isDouble : Bool)
       (card : ChanceCard) (logs : List LogEntry),
      findPlayer s.players pid = some p →
      tileAt s.tiles p.position = some tile →
      tile.type = TileType.TAX →
      tile.price = some tx → tx ≠ 0 →
      p.money - tx < 0 →
      (handleLanding s pid isDouble card logs).1.players.map Player.bankrupt =
        s.players.map Player.bankrupt ∧
      findPlayer (handleLanding s pid isDouble card logs).1.players pid =
        some { p with money := p.money - tx } ∧
      (handleLanding s pid isDouble card logs).1.tiles = s.tiles ∧
      (handleLanding s pid isDouble card logs).1.phase =
        (if isDouble then GamePhase.ROLLING else GamePhase.END_TURN)) ∧
    (∀ (s : GameState) (p q : Player) (d1 d2 : Nat) (t2 : Tile) (card : ChanceCard)
       (logs : List LogEntry),
      s.players = [p, q] → p.id ≠ q.id →
      p.isInJail = true → d1 ≠ d2 → p.jailTurns = 2 →
      p.position + (d1 + d2) < 40 →
      tileAt s.tiles (p.position + (d1 + d2)) = some t2 →
      t2.type = TileType.PARKING →
      p.money - 50 < 0 →
      findPlayer (processRoll s p d1 d2 card logs).1.players p.id =
        some { p with
            money := p.money - 50,
            isInJail := false,
            jailTurns := 0,
            consecutiveDoubles := 0,
            position := p.position + (d1 + d2) } ∧
      findPlayer (processRoll s p d1 d2 card logs).1.players q.id = some q ∧
      (processRoll s p d1 d2 card logs).1.tiles = s.tiles ∧
      (processRoll s p d1 d2 card logs).1.phase = GamePhase.END_TURN) := by
  refine ⟨?_, ?_, ?_⟩
  · intro s p q r tile isDouble card logs hps hpb hqb hrb hpq hpr hqr ht htype hown hneg
    have hq_ne : q.id ≠ p.id := fun h => hpq h.symm
    have hp : findPlayer s.players p.id = some p := by simp [hps, findPlayer]
    have ho : findPlayer s.players q.id = some q := by simp [hps, findPlayer, hpq]
    simp only [handleLanding, hp, ht, htype, hown, ho, hqb]
    simp [hq_ne, hpq, hneg, hps, updateFirst, findPlayer, List.filter, hqb, hpb, hrb]
  · intro s pid p tile tx isDouble card logs hp ht htype htx htx0 _hneg
    have hmap := updateFirst_map_bankrupt s.players pid
      (fun u => { u with money := u.money - tx }) (fun u => rfl)
    have hfind : findPlayer (updateFirst s.players pid
        (fun u => { u with money := u.money - tx })) pid =
        some { p with money := p.money - tx } := by
      rw [findPlayer_updateFirst_self s.players pid
        (fun u => { u with money := u.money - tx }) (fun u => rfl), hp]
      rfl
    simp only [handleLanding, hp, ht, htype, htx]
    simp [htx0, hmap, hfind]
  · intro s p q d1 d2 t2 card logs hps hpq hj hd h2 hlt ht2 htype2 _hneg
    have h2b : p.jailTurns ≥ 2 := by omega
    have hnp : ¬ p.position + (d1 + d2) ≥ 40 := Nat.not_le.mpr hlt
    have hq_ne : q.id ≠ p.id := fun h => hpq h.symm
    simp only [processRoll, hj, hd, if_neg hd]
    simp only [if_pos h2b, hps]
    simp [movePlayer, findPlayer, updateFirst, hpq, hq_ne, hnp, handleLanding, ht2, htype2]

theorem claimC3_witness :
    ((handleLanding stateRent3 "A" false cardM0 []).1.tiles =
        stateRent3.tiles.map (fun t => if t.ownerId = some "A" then
          { t with ownerId := none, houseCount := some 0 } else t) ∧
      findPlayer (handleLanding stateRent3 "A" false cardM0 []).1.players "A" =
        some { mkPlayer "A" 1 1 [3] with
            money := (mkPlayer "A" 1 1 [3]).money -
              (computeRent stateRent3 (mkProp 1 ColorGroup.BROWN 60 2 (some "B"))
                (mkPlayer "B" 500 0 [1])).1,
            bankrupt := true } ∧
      (handleLanding stateRent3 "A" false cardM0 []).1.phase = GamePhase.END_TURN ∧
      (handleLanding stateRent3 "A" false cardM0 []).1.waitingForDoublesTurn = false) ∧
    ((handleLanding stateTax "A" false cardM0 []).1.players.map Player.bankrupt =
        stateTax.players.map Player.bankrupt ∧
      findPlayer (handleLanding stateTax "A" false cardM0 []).1.players "A" =
        some { mkPlayer "A" 50 1 [] with money := (mkPlayer "A" 50 1 []).money - 100 } ∧
      (handleLanding stateTax "A" false cardM0 []).1.tiles = stateTax.tiles ∧
      (handleLanding stateTax "A" false cardM0 []).1.phase = GamePhase.END_TURN) ∧
    (findPlayer (processRoll stateBail jailedA2 1 2 cardM0 []).1.players "A" =
        some { jailedA2 with
            money := jailedA2.money - 50,
            isInJail := false,
            jailTurns := 0,
            consecutiveDoubles := 0,
            position := jailedA2.position + (1 + 2) } ∧
      findPlayer (processRoll stateBail jailedA2 1 2 cardM0 []).1.players "B" =
        some (mkPlayer "B" 500 0 []) ∧
      (processRoll stateBail jailedA2 1 2 cardM0 []).1.tiles = stateBail.tiles ∧
      (processRoll stateBail jailedA2 1 2 cardM0 []).1.phase = GamePhase.END_TURN) := by
  refine ⟨?_, ?_, ?_⟩
  · exact claimC3_amended.1 stateRent3 (mkPlayer "A" 1 1 [3]) (mkPlayer "B" 500 0 [1])
      (mkPlayer "C" 500 0 []) (mkProp 1 ColorGroup.BROWN 60 2 (some "B")) false cardM0 []
      rfl rfl rfl rfl (by decide) (by decide) (by decide) (by decide) rfl rfl (by decide)
  · exact claimC3_amended.2.1 stateTax "A" (mkPlayer "A" 50 1 []) (taxTile 1) 100 false cardM0 []
      (by decide) (by decide) rfl rfl (by decide) (by decide)
  · exact claimC3_amended.2.2 stateBail jailedA2 (mkPlayer "B" 500 0 []) 1 2 (parkingTile 13)
      cardM0 [] rfl (by decide) rfl (by decide) rfl (by decide) (by decide) rfl (by decide)

/-! Claim C4. -/

theorem findTile_eq_some {ts : List Tile} {tid : Nat} {t : Tile}
    (h : findTile ts tid = some t) : t ∈ ts ∧ t.id = tid := by
  induction ts with
  | nil => simp [findTile] at h
  | cons u rest ih =>
    by_cases hu : u.id = tid
    · simp only [findTile, if_pos hu, Option.some.injEq] at h
      subst h
      exact ⟨List.mem_cons_self _ _, hu⟩
    · simp only [findTile, if_neg hu] at h
      obtain ⟨hm, hid⟩ := ih h
      exact ⟨List.mem_cons_of_mem _ hm, hid⟩

/-- C4 counterexample: the selected tile 1 is owned by B and A holds no tile
of its color group, yet the upgrade intent of A succeeds on the host: the
building cost is deducted from A and the building count of tile 1 rises to
1 — the claimed ownership and full-group conditions are not checked. -/
theorem claimC4_counterexample :
    (findTile stateUpgrade.tiles 1).map Tile.ownerId = some (some "B") ∧
    checkOwnsGroup (some "A") ColorGroup.BROWN stateUpgrade.tiles = false ∧
    (findPlayer (processUpgrade stateUpgrade (mkPlayer "A" 500 0 []) []).1.players "A").map
      Player.money = some 450 ∧
    (findTile (processUpgrade stateUpgrade (mkPlayer "A" 500 0 []) []).1.tiles 1).map
      Tile.houseCount = some (some 1) := by decide

/-- C4 (amended): a building upgrade succeeds exactly when a tile is
selected, the tile exists and has a nonzero building cost, the acting player
can afford it, and the building count is below 5 — ownership of the tile and
of its color group are NOT checked; on success exactly the building cost is
deducted and the building count increments by exactly one, and the
insufficient-funds and maximal-tier cases leave the state unchanged. -/
theorem claimC4_amended :
    (∀ (s : GameState) (p : Player) (tid : Nat) (tile : Tile) (hc : Int) (logs : List LogEntry),
      s.selectedTileId = some tid →
      findTile s.tiles tid = some tile →
      tile.houseCost = some hc → hc ≠ 0 →
      ¬ p.money < hc →
      tile.houseCount.getD 0 < 5 →
      findPlayer s.players p.id = some p →
      findPlayer (processUpgrade s p logs).1.players p.id =
        some { p with money := p.money - hc } ∧
      findTile (processUpgrade s p logs).1.tiles tid =
        some { tile with houseCount := some (tile.houseCount.getD 0 + 1) } ∧
      (processUpgrade s p logs).2 = logs ++ [createLog LogMsg.upgraded LogType.success]) ∧
    (∀ (s : GameState) (p : Player) (tid : Nat) (tile : Tile) (hc : Int) (logs : List LogEntry),
      s.selectedTileId = some tid →
      findTile s.tiles tid = some tile →
      tile.houseCost = some hc →
      p.money < hc →
      (processUpgrade s p logs).1 = s) ∧
    (∀ (s : GameState) (p : Player) (tid : Nat) (tile : Tile) (hc : Int) (k : Nat)
       (logs : List LogEntry),
      s.selectedTileId = some tid →
      findTile s.tiles tid = some tile →
      tile.houseCost = some hc →
      tile.houseCount = some k → 5 ≤ k →
      (processUpgrade s p logs).1 = s) := by
  refine ⟨?_, ?_, ?_⟩
  · intro s p tid tile hc logs hsel hfind hcost hc0 hmoney hlt hp
    have hcap : ¬ (tile.houseCount.getD 0 ≠ 0 ∧ tile.houseCount.getD 0 ≥ 5) := by omega
    have hfp : findPlayer (updateFirst s.players p.id
        (fun u => { u with money := u.money - hc })) p.id =
        some { p with money := p.money - hc } := by
      rw [findPlayer_updateFirst_self s.players p.id
        (fun u => { u with money := u.money - hc }) (fun u => rfl), hp]
      rfl
    have htid := (findTile_eq_some hfind).2
    subst htid
    have hft : findTile (updateFirstTile s.tiles tile.id
        (fun _ => { tile with houseCount := some (tile.houseCount.getD 0 + 1) })) tile.id =
        some { tile with houseCount := some (tile.houseCount.getD 0 + 1) } := by
      rw [findTile_updateFirstTile_self s.tiles tile.id
        (fun _ => { tile with houseCount := some (tile.houseCount.getD 0 + 1) })
        (fun u hu => rfl), hfind]
      rfl
    rw [hcost] at hft
    simp only [processUpgrade, hsel, hfind, hcost]
    simp [hc0, hmoney, hcap, hfp, hft]
  · intro s p tid tile hc logs hsel hfind hcost hmoney
    by_cases hc0 : hc = 0
    · simp [processUpgrade, hsel, hfind, hcost, hc0]
    · simp [processUpgrade, hsel, hfind, hcost, hc0, hmoney]
  · intro s p tid tile hc k logs hsel hfind hcost hk h5
    by_cases hc0 : hc = 0
    · simp [processUpgrade, hsel, hfind, hcost, hc0]
    · by_cases hmoney : p.money < hc
      · simp [processUpgrade, hsel, hfind, hcost, hc0, hmoney]
      · have hcap : tile.houseCount.getD 0 ≠ 0 ∧ tile.houseCount.getD 0 ≥ 5 := by
          rw [hk]; simp; omega
        simp [processUpgrade, hsel, hfind, hcost, hc0, hmoney, hcap]

theorem claimC4_witness :
    (findPlayer (processUpgrade stateUpgrade (mkPlayer "A" 500 0 []) []).1.players "A" =
      some { mkPlayer "A" 500 0 [] with money := (mkPlayer "A" 500 0 []).money - 50 } ∧
    findTile (processUpgrade stateUpgrade (mkPlayer "A" 500 0 []) []).1.tiles 1 =
      some { mkProp 1 ColorGroup.BROWN 60 2 (some "B") with
        houseCount := some ((mkProp 1 ColorGroup.BROWN 60 2 (some "B")).houseCount.getD 0 + 1) } ∧
    (processUpgrade stateUpgrade (mkPlayer "A" 500 0 []) []).2 =
      [] ++ [createLog LogMsg.upgraded LogType.success]) ∧
    (processUpgrade { stateUpgrade with selectedTileId := some 2 }
      (mkPlayer "A" 10 0 []) []).1 = { stateUpgrade with selectedTileId := some 2 } :=
  ⟨claimC4_amended.1 stateUpgrade (mkPlayer "A" 500 0 []) 1
      (mkProp 1 ColorGroup.BROWN 60 2 (some "B")) 50 []
      rfl rfl rfl (by decide) (by decide) (by decide) (by decide),
   claimC4_amended.2.1 { stateUpgrade with selectedTileId := some 2 }
      (mkPlayer "A" 10 0 []) 2 (mkProp 2 ColorGroup.BROWN 60 4 none) 50 []
      rfl rfl rfl (by decide)⟩

/-! Claim C10. -/

theorem applyChanceEffect_dice (st : GameState) (pid : String) (card : ChanceCard)
    (dbl : Bool) (logs : List LogEntry) :
    (applyChanceEffect st pid card dbl logs).1.dice = st.dice := by
  unfold applyChanceEffect
  cases hfp : findPlayer st.players pid with
  | none => rfl
  | some pl =>
    cases card.effectType <;> simp
    split <;> rfl

theorem handleLanding_dice (st : GameState) (pid : String) (dbl : Bool)
    (card : ChanceCard) (logs : List LogEntry) :
    (handleLanding st pid dbl card logs).1.dice = st.dice := by
  cases hfp : findPlayer st.players pid with
  | none => simp [handleLanding, hfp]
  | some player =>
    cases hta : tileAt st.tiles player.position with
    | none => simp [handleLanding, hfp, hta]
    | some tile =>
      by_cases h1 : tile.type = TileType.GO_TO_JAIL
      · simp [handleLanding, hfp, hta, h1]
      · by_cases h2 : tile.type = TileType.CHANCE ∨ tile.type = TileType.COMMUNITY_CHEST
        · simp [handleLanding, hfp, hta, h1, h2, applyChanceEffect_dice]
        · simp only [handleLanding, hfp, hta]
          rw [if_neg h1, if_neg (by simpa using h2)]
          split
          next res heq =>
            repeat' split at heq
            all_goals
              first
              | (injection heq with h; subst h; rfl)
              | exact Option.noConfusion heq
          next heq =>
            split <;> rfl

theorem movePlayer_dice (st : GameState) (steps : Nat) (pid : String) (dbl : Bool)
    (card : ChanceCard) (logs : List LogEntry) :
    (movePlayer st steps pid dbl card logs).1.dice = st.dice := by
  unfold movePlayer
  cases hfp : findPlayer st.players pid with
  | none => rfl
  | some p => simp [handleLanding_dice]

theorem processRoll_dice (s : GameState) (p : Player) (d1 d2 : Nat) (card : ChanceCard)
    (logs : List LogEntry) :
    (processRoll s p d1 d2 card logs).1.dice = (d1, d2) := by
  by_cases hj : p.isInJail = true
  · by_cases hd : d1 = d2
    · simp [processRoll, hj, hd, movePlayer_dice]
    · by_cases h2 : p.jailTurns ≥ 2
      · simp [processRoll, hj, hd, h2, movePlayer_dice]
      · simp [processRoll, hj, hd, h2]
  · by_cases h3 : (if d1 = d2 then p.consecutiveDoubles + 1 else 0) = 3
    · simp [processRoll, hj, h3]
    · simp [processRoll, hj, h3, movePlayer_dice]

/-- C10 (confirmed): the host dispatcher validates only the acting player,
never the phase.  A buy intent from the current-turn player is applied with
no hypothesis whatsoever on the phase — the tile at the current position is
sold whenever it has a nonzero price the player can afford — and a roll
intent arriving while the phase is already GAME_OVER is still processed (for
any dice outcome the dice of the state change to that outcome). -/
theorem claimC10 :
    (∀ (s : GameState) (pid : String) (p : Player) (tile : Tile) (price : Int)
       (d1 d2 : Nat) (card : ChanceCard),
      findPlayer s.players pid = some p →
      isTurnOf s p.id = true →
      tileAt s.tiles p.position = some tile →
      tile.price = some price → price ≠ 0 →
      ¬ p.money < price →
      tileAt (executeGameLogic s ⟨ActionType.BUY, pid⟩ d1 d2 card).tiles p.position =
        some { tile with ownerId := some p.id } ∧
      findPlayer (executeGameLogic s ⟨ActionType.BUY, pid⟩ d1 d2 card).players p.id =
        some { p with money := p.money - price, properties := p.properties ++ [tile.id] } ∧
      (executeGameLogic s ⟨ActionType.BUY, pid⟩ d1 d2 card).phase =
        (if s.waitingForDoublesTurn then GamePhase.ROLLING else GamePhase.END_TURN)) ∧
    (∀ (s : GameState) (pid : String) (p : Player) (d1 d2 : Nat) (card : ChanceCard),
      findPlayer s.players pid = some p →
      isTurnOf s p.id = true →
      s.phase = GamePhase.GAME_OVER →
      (executeGameLogic s ⟨ActionType.ROLL, pid⟩ d1 d2 card).dice = (d1, d2)) := by
  constructor
  · intro s pid p tile price d1 d2 card hf ht hta hpr hpr0 hm
    have hlen := tileAt_lt_length hta
    have hset := tileAt_setTileAt_self { tile with ownerId := some p.id } hlen
    have hid := (findPlayer_eq_some hf).2
    have hfp : findPlayer (updateFirst s.players p.id
        (fun u => { u with money := u.money - price, properties := u.properties ++ [tile.id] }))
        p.id =
        some { p with money := p.money - price, properties := p.properties ++ [tile.id] } := by
      rw [findPlayer_updateFirst_self s.players p.id
        (fun u => { u with money := u.money - price, properties := u.properties ++ [tile.id] })
        (fun u => rfl), hid, hf]
      simp [hid]
    rw [hpr] at hset
    simp only [executeGameLogic, hf, ht, processBuy, hta, hpr]
    simp [hpr0, hm, hset, hfp]
  · intro s pid p d1 d2 card hf ht _hover
    simp [executeGameLogic, hf, ht, processRoll_dice]

theorem claimC10_witness :
    (tileAt (executeGameLogic stateBuyOddPhase ⟨ActionType.BUY, "A"⟩ 1 2 cardM0).tiles 1 =
      some { mkProp 1 ColorGroup.BROWN 60 2 none with ownerId := some "A" } ∧
    findPlayer (executeGameLogic stateBuyOddPhase ⟨ActionType.BUY, "A"⟩ 1 2 cardM0).players "A" =
      some { mkPlayer "A" 500 1 [] with
          money := (mkPlayer "A" 500 1 []).money - 60,
          properties := (mkPlayer "A" 500 1 []).properties ++ [1] } ∧
    (executeGameLogic stateBuyOddPhase ⟨ActionType.BUY, "A"⟩ 1 2 cardM0).phase =
      (if stateBuyOddPhase.waitingForDoublesTurn then GamePhase.ROLLING
       else GamePhase.END_TURN)) ∧
    (executeGameLogic stateOver ⟨ActionType.ROLL, "A"⟩ 3 4 cardM0).dice = (3, 4) :=
  ⟨claimC10.1 stateBuyOddPhase "A" (mkPlayer "A" 500 1 [])
      (mkProp 1 ColorGroup.BROWN 60 2 none) 60 1 2 cardM0
      (by decide) (by decide) (by decide) rfl (by decide) (by decide),
   claimC10.2 stateOver "A" (mkPlayer "A" 500 0 []) 3 4 cardM0 (by decide) (by decide) rfl⟩

/-! Claim C2. -/

theorem eq_of_sameId {ps : List Player} (hnd : (ps.map Player.id).Nodup)
    {q r : Player} (hq : q ∈ ps) (hr : r ∈ ps) (h : q.id = r.id) : q = r := by
  induction ps with
  | nil => simp at hq
  | cons a rest ih =>
    simp only [List.map_cons, List.nodup_cons] at hnd
    rcases List.mem_cons.mp hq with hq1 | hq1 <;> rcases List.mem_cons.mp hr with hr1 | hr1
    · rw [hq1, hr1]
    · subst hq1
      exact absurd (h ▸ List.mem_map_of_mem Player.id hr1) hnd.1
    · subst hr1
      exact absurd (h ▸ List.mem_map_of_mem Player.id hq1) (by simpa [h] using hnd.1)
    · exact ih hnd.2 hq1 hr1

theorem processSurrender_tiles (s : GameState) (p : Player) (logs : List LogEntry) :
    (processSurrender s p logs).1.tiles =
      s.tiles.map (fun t => if t.ownerId = some p.id then
        { t with ownerId := none, houseCount := some 0 } else t) := by
  by_cases hturn : isTurnOf s p.id = true
  · simp only [processSurrender, processEndTurn, hturn, if_true]
    split <;> rfl
  · simp only [processSurrender, hturn]
    simp only [Bool.false_eq_true, if_false]
    split <;> rfl

theorem processSurrender_players (s : GameState) (p : Player) (logs : List LogEntry) :
    (processSurrender s p logs).1.players =
      updateFirst s.players p.id (fun q => { q with bankrupt := true, money := 0 }) := by
  by_cases hturn : isTurnOf s p.id = true
  · simp only [processSurrender, processEndTurn, hturn, if_true]
    split <;> rfl
  · simp only [processSurrender, hturn]
    simp only [Bool.false_eq_true, if_false]
    split <;> rfl

/-- Decidable check that every tile of a list carries the id of its index. -/
def tileIdsMatchB (ts : List Tile) : Bool :=
  (List.range ts.length).all (fun i =>
    match tileAt ts i with
    | some t => t.id == i
    | none => true)

theorem tilesIndexed_of_B (s : GameState) (h : tileIdsMatchB s.tiles = true) :
    tilesIndexed s := by
  intro i t hit
  have hlt := tileAt_lt_length hit
  have hall := List.all_eq_true.mp h i (List.mem_range.mpr hlt)
  rw [hit] at hall
  simpa using hall

/-- C2 counterexample: after the bankruptcy release performed by a
surrender, the released tiles have their owner cleared but the property set
of the bankrupt player is not emptied, so the mutual consistency between
tile owners and player property sets is broken: B still lists tile 1 while
tile 1 names no owner. -/
theorem claimC2_counterexample :
    stateConsistent stateSurrender3 ∧
    ¬ stateConsistent (processSurrender stateSurrender3 (mkPlayer "B" 300 0 [1]) []).1 ∧
    (findPlayer (processSurrender stateSurrender3 (mkPlayer "B" 300 0 [1]) []).1.players "B").map
      Player.properties = some [1] ∧
    (findTile (processSurrender stateSurrender3 (mkPlayer "B" 300 0 [1]) []).1.tiles 1).map
      Tile.ownerId = some none := by decide

/-- C2 (amended): after a successful purchase of an unowned tile from a
consistent state, tile ownership and player property sets are still mutually
consistent.  A bankruptcy release keeps only one direction: afterwards no
tile names the bankrupt player as owner, but the property set of the
bankrupt player is left unchanged (stale tile ids remain in it), so the
mutual consistency can be broken by a release. -/
theorem claimC2_amended :
    (∀ (s : GameState) (p : Player) (tile : Tile) (price : Int) (logs : List LogEntry),
      stateConsistent s →
      tilesIndexed s →
      (s.players.map Player.id).Nodup →
      findPlayer s.players p.id = some p →
      tileAt s.tiles p.position = some tile →
      tile.ownerId = none →
      tile.price = some price → price ≠ 0 → ¬ p.money < price →
      stateConsistent (processBuy s p logs).1) ∧
    (∀ (s : GameState) (p : Player) (logs : List LogEntry),
      (∀ t ∈ (processSurrender s p logs).1.tiles, t.ownerId ≠ some p.id) ∧
      (findPlayer s.players p.id = some p →
        findPlayer (processSurrender s p logs).1.players p.id =
          some { p with bankrupt := true, money := 0 })) := by
  constructor
  · intro s p tile price logs hcons hidx hnd hfp ht hun hpr hpr0 hm
    have hmem := (findPlayer_eq_some hfp).1
    have hlen := tileAt_lt_length ht
    have htid : tile.id = p.position := hidx p.position tile ht
    have keyP : (processBuy s p logs).1.players = updateFirst s.players p.id
        (fun u => { u with money := u.money - price, properties := u.properties ++ [tile.id] }) := by
      simp [processBuy, ht, hpr, hpr0, hm]
    have keyT : (processBuy s p logs).1.tiles =
        setTileAt s.tiles p.position { tile with ownerId := some p.id } := by
      simp [processBuy, ht, hpr, hpr0, hm]
    simp only [stateConsistent, keyP, keyT]
    constructor
    · intro t' hmem'
      obtain ⟨i, hi⟩ := tileAt_of_mem hmem'
      by_cases hip : i = p.position
      · subst hip
        rw [tileAt_setTileAt_self _ hlen] at hi
        injection hi with hi
        subst hi
        right
        refine ⟨_, findPlayer_mem_updateFirst
          (fun u => { u with money := u.money - price, properties := u.properties ++ [tile.id] })
          hfp, rfl, ?_⟩
        simp
      · rw [tileAt_setTileAt_ne _ hip] at hi
        have ht' : t' ∈ s.tiles := mem_of_tileAt hi
        rcases hcons.1 t' ht' with hnone | ⟨q, hq, hqo, hqp⟩
        · exact Or.inl hnone
        · right
          by_cases hqid : q.id = p.id
          · have hqp' : q = p := eq_of_sameId hnd hq hmem hqid
            subst hqp'
            refine ⟨_, findPlayer_mem_updateFirst
              (fun u => { u with money := u.money - price, properties := u.properties ++ [tile.id] })
              hfp, hqo, ?_⟩
            simp [hqp]
          · exact ⟨q, mem_updateFirst_of_ne hq hqid, hqo, hqp⟩
    · intro q' hq' tid htid'
      rcases mem_updateFirst hq' with hq1 | ⟨r, hr, hrid, hq'e⟩
      · obtain ⟨t, htm, htt, hto⟩ := hcons.2 q' hq1 tid htid'
        obtain ⟨i, hi⟩ := tileAt_of_mem htm
        by_cases hip : i = p.position
        · subst hip
          rw [ht] at hi
          injection hi with hi
          subst hi
          rw [hun] at hto
          exact absurd hto (by simp)
        · refine ⟨t, ?_, htt, hto⟩
          apply mem_of_tileAt (i := i)
          rw [tileAt_setTileAt_ne _ hip]
          exact hi
      · have hreq : p = r := (eq_of_sameId hnd hr hmem hrid).symm
        subst hreq
        subst hq'e
        simp only [List.mem_append, List.mem_singleton] at htid'
        rcases htid' with htid1 | htid1
        · obtain ⟨t, htm, htt, hto⟩ := hcons.2 p hmem tid htid1
          obtain ⟨i, hi⟩ := tileAt_of_mem htm
          by_cases hip : i = p.position
          · subst hip
            rw [ht] at hi
            injection hi with hi
            subst hi
            rw [hun] at hto
            exact absurd hto (by simp)
          · refine ⟨t, ?_, htt, hto⟩
            apply mem_of_tileAt (i := i)
            rw [tileAt_setTileAt_ne _ hip]
            exact hi
        · subst htid1
          refine ⟨{ tile with ownerId := some p.id },
            mem_of_tileAt (tileAt_setTileAt_self _ hlen), rfl, rfl⟩
  · intro s p logs
    constructor
    · intro t htm
      rw [processSurrender_tiles] at htm
      obtain ⟨u, hu, hue⟩ := List.mem_map.mp htm
      by_cases huo : u.ownerId = some p.id
      · rw [if_pos huo] at hue
        simp [← hue]
      · rw [if_neg huo] at hue
        rw [← hue]
        exact huo
    · intro hfp
      rw [processSurrender_players, findPlayer_updateFirst_self s.players p.id
        (fun q => { q with bankrupt := true, money := 0 }) (fun q => rfl), hfp]
      rfl

theorem claimC2_witness :
    stateConsistent (processBuy stateBuyOddPhase (mkPlayer "A" 500 1 []) []).1 ∧
    (∀ t ∈ (processSurrender stateSurrender3 (mkPlayer "B" 300 0 [1]) []).1.tiles,
      t.ownerId ≠ some "B") ∧
    findPlayer (processSurrender stateSurrender3 (mkPlayer "B" 300 0 [1]) []).1.players "B" =
      some { mkPlayer "B" 300 0 [1] with bankrupt := true, money := 0 } :=
  ⟨claimC2_amended.1 stateBuyOddPhase (mkPlayer "A" 500 1 [])
      (mkProp 1 ColorGroup.BROWN 60 2 none) 60 []
      (by decide) (tilesIndexed_of_B _ (by decide)) (by decide) (by decide) (by decide)
      rfl rfl (by decide) (by decide),
   (claimC2_amended.2 stateSurrender3 (mkPlayer "B" 300 0 [1]) []).1,
   (claimC2_amended.2 stateSurrender3 (mkPlayer "B" 300 0 [1]) []).2 (by decide)⟩
